import Mathlib

/-! # LibretroDroid, `ImageRendererES2`: frame-to-texture upload

A shallow embedding of `renderers/es2/imagerendereres2.cpp`:

* `ImageRendererES2.convertDataFromRGB8888`, the in-place red/blue swap, over a byte
  buffer with explicit bounds: an access outside the buffer and the overflow of a
  signed loop counter are undefined behaviour in C++ and stop the run with a `Status`;
* `ImageRendererES2.setPixelFormat`, the pixel format policy;
* `ImageRendererES2.onNewFrame`, which returns the renderer afterwards, the frame
  buffer afterwards and the OpenGL ES calls it issued, in order.

`size_t` is 32 or 64 bits wide (`ABI`); `unsigned` and `int` are 32 bits wide.
-/

set_option autoImplicit false

namespace LibretroDroid

/-! ## Machine integers -/

/-- The two data models the library is built for: 32-bit and 64-bit `size_t`. -/
inductive ABI where
  | ilp32
  | lp64
  deriving DecidableEq

/-- Width of `size_t` in bits. -/
def ABI.sizeBits : ABI → Nat
  | .ilp32 => 32
  | .lp64 => 64

/-- `SIZE_MAX + 1`: arithmetic on `size_t` is modulo this number. -/
def ABI.sizeMod (abi : ABI) : Nat := 2 ^ abi.sizeBits

/-- `UINT_MAX + 1`: arithmetic on `unsigned` is modulo this number. -/
def UINT_MOD : Nat := 2 ^ 32

/-- Largest value of an `int`. -/
def INT_MAX : Nat := 2 ^ 31 - 1

/-- One `char` of the frame buffer. -/
abbrev Byte := Fin 256

/-- How a run ends: normally, or at the first undefined behaviour it meets.
`outOfFuel` is the embedding's own: the loops recurse on a counter, and
`convertLoop_fuel`, `uploadRows_fuel` show it is never reached. -/
inductive Status where
  | ok
  | outOfBounds
  | signedOverflow
  | outOfFuel
  deriving DecidableEq

/-! ## OpenGL ES 2 calls -/

/-- The OpenGL ES constants the renderer uses, by name. -/
inductive GLenum where
  | GL_TEXTURE_2D
  | GL_UNPACK_ALIGNMENT
  | GL_TEXTURE_MIN_FILTER
  | GL_TEXTURE_MAG_FILTER
  | GL_TEXTURE_WRAP_S
  | GL_TEXTURE_WRAP_T
  | GL_LINEAR
  | GL_CLAMP_TO_EDGE
  | GL_RGBA
  | GL_RGB
  | GL_RGB565
  | GL_UNSIGNED_BYTE
  | GL_UNSIGNED_SHORT_5_6_5
  deriving DecidableEq

/-- One call into OpenGL ES with its arguments. A pointer into the frame buffer is the
byte offset from `data`; `glTexImage2D` is only called with a `NULL` pointer. -/
inductive GLCall where
  | glBindTexture (target : GLenum) (texture : Nat)
  | glPixelStorei (pname : GLenum) (param : Nat)
  | glTexParameteri (target pname param : GLenum)
  | glTexImage2D (target : GLenum) (level : Nat) (internalformat : GLenum)
      (width height border : Nat) (format type : GLenum)
  | glTexSubImage2D (target : GLenum) (level xoffset yoffset width height : Nat)
      (format type : GLenum) (data : Nat)
  deriving DecidableEq

/-! ## In-place channel conversion -/

/-- Outcome of `convertDataFromRGB8888`: the buffer afterwards, the indices of
`pixelData` it read or wrote, in order, and how the run ended. -/
structure Conversion where
  mem : List Byte
  accesses : List Nat
  status : Status
  deriving DecidableEq

/-- The value of `size - 4` in `size_t`. -/
def loopBound (abi : ABI) (size : Nat) : Nat :=
  (size + abi.sizeMod - 4) % abi.sizeMod

/-- The loop `for (int i = 0; i < size - 4; i += 4) { ... }` from counter value `i` on,
`bound` being `size - 4`. One iteration reads `pixelData[i]` and `pixelData[i + 2]`, then
writes them back exchanged, then adds 4 to the `int` counter. -/
def convertLoop (bound : Nat) : Nat → Nat → List Byte → Conversion
  | 0, _, mem => ⟨mem, [], .outOfFuel⟩
  | fuel + 1, i, mem =>
    if i < bound then
      match mem[i]?, mem[i + 2]? with
      | none, _ => ⟨mem, [i], .outOfBounds⟩
      | some _, none => ⟨mem, [i, i + 2], .outOfBounds⟩
      | some currentRed, some currentBlue =>
        let mem1 := (mem.set i currentBlue).set (i + 2) currentRed
        if i + 4 ≤ INT_MAX then
          let rest := convertLoop bound fuel (i + 4) mem1
          ⟨rest.mem, i :: (i + 2) :: i :: (i + 2) :: rest.accesses, rest.status⟩
        else
          ⟨mem1, [i, i + 2, i, i + 2], .signedOverflow⟩
    else
      ⟨mem, [], .ok⟩

namespace ImageRendererES2

/-- `ImageRendererES2::convertDataFromRGB8888(data, size)`; `data` is the whole buffer
behind the pointer, `size` the `size_t` argument. -/
def convertDataFromRGB8888 (abi : ABI) (data : List Byte) (size : Nat) : Conversion :=
  convertLoop (loopBound abi size) (data.length + 1) 0 data

end ImageRendererES2

/-! ## Renderer state and pixel format policy -/

/-- The two codes of `enum retro_pixel_format` that the renderer names. The enumeration is
declared in `libretro.h`, which is not among the sources, so the codes are a parameter of
every definition below; as labels of one `switch` they are different integers. -/
structure RetroPixelFormat where
  RETRO_PIXEL_FORMAT_XRGB8888 : Int
  RETRO_PIXEL_FORMAT_RGB565 : Int
  distinct : RETRO_PIXEL_FORMAT_XRGB8888 ≠ RETRO_PIXEL_FORMAT_RGB565

/-- The codes of the libretro API: `RETRO_PIXEL_FORMAT_XRGB8888 = 1`,
`RETRO_PIXEL_FORMAT_RGB565 = 2`. -/
def libretro_h : RetroPixelFormat := ⟨1, 2, by decide⟩

/-- Modelled from the spec: the data members of the renderer are declared in
`imagerendereres2.h` and `renderer.h`, which are not among the sources. These are the
members the functions of `imagerendereres2.cpp` read or write; `bytesPerPixel` is an
`int` (spec, section 3) that only ever holds 2 or 4, `lastFrameSize` a pair of
`unsigned` (the spec's `lastWidth`, `lastHeight`). -/
structure ImageRendererES2 where
  currentTexture : Nat
  pixelFormat : Int
  glInternalFormat : GLenum
  glFormat : GLenum
  glType : GLenum
  bytesPerPixel : Nat
  lastFrameSize : Nat × Nat
  deriving DecidableEq

namespace ImageRendererES2

/-- `ImageRendererES2::setPixelFormat(pixelFormat)`: the `switch` has the case
`RETRO_PIXEL_FORMAT_XRGB8888` and one arm for `default` and `RETRO_PIXEL_FORMAT_RGB565`. -/
def setPixelFormat (E : RetroPixelFormat) (self : ImageRendererES2) (pixelFormat : Int) :
    ImageRendererES2 :=
  let self := { self with pixelFormat := pixelFormat }
  if pixelFormat = E.RETRO_PIXEL_FORMAT_XRGB8888 then
    { self with
      glInternalFormat := .GL_RGBA
      glFormat := .GL_RGBA
      glType := .GL_UNSIGNED_BYTE
      bytesPerPixel := 4 }
  else
    { self with
      glInternalFormat := .GL_RGB565
      glFormat := .GL_RGB
      glType := .GL_UNSIGNED_SHORT_5_6_5
      bytesPerPixel := 2 }

/-- `ImageRendererES2::getTexture()`. -/
def getTexture (self : ImageRendererES2) : Nat := self.currentTexture

/-- `ImageRendererES2::getFramebuffer()`. -/
def getFramebuffer (_self : ImageRendererES2) : Nat := 0

end ImageRendererES2

/-! ## Frame upload -/

/-- Modelled from the spec: `Renderer::onNewFrame`, the completion hook of the base
class, is defined in `renderer.cpp`, which is not among the sources. Section 4.2 (3):
the uploader "updates `lastWidth/lastHeight` to the new dimensions (always, even on the
fast path ...)"; no statement of `ImageRendererES2::onNewFrame` assigns `lastFrameSize`,
so the hook is what does. -/
def Renderer.onNewFrame (self : ImageRendererES2) (width height : Nat) : ImageRendererES2 :=
  { self with lastFrameSize := (width, height) }

/-- The slow path `for (int i = 0; i < height; i++) { ... }` from counter value `i` on:
the calls issued and how the loop ended. `row` is `data + pitch * i`, the product taken
in `size_t`; `glFormat` and `glType` are the renderer's members. -/
def uploadRows (abi : ABI) (glFormat glType : GLenum) (width height pitch : Nat) :
    Nat → Nat → List GLCall × Status
  | 0, _ => ([], .outOfFuel)
  | fuel + 1, i =>
    if i < height then
      let row := (pitch * i) % abi.sizeMod
      let call := GLCall.glTexSubImage2D .GL_TEXTURE_2D 0 0 i width 1 glFormat glType row
      if i + 1 ≤ INT_MAX then
        let rest := uploadRows abi glFormat glType width height pitch fuel (i + 1)
        (call :: rest.1, rest.2)
      else
        ([call], .signedOverflow)
    else
      ([], .ok)

/-- Outcome of `onNewFrame`: the renderer and the caller's frame buffer afterwards, the
OpenGL ES calls issued, the buffer indices the conversion touched, and how the call
ended. When it did not end normally the calls are those issued up to that point. -/
structure FrameResult where
  renderer : ImageRendererES2
  data : List Byte
  calls : List GLCall
  accesses : List Nat
  status : Status
  deriving DecidableEq

namespace ImageRendererES2

/-- The calls up to the conversion. -/
def bindCalls (self : ImageRendererES2) : List GLCall :=
  [.glBindTexture .GL_TEXTURE_2D self.currentTexture,
   .glPixelStorei .GL_UNPACK_ALIGNMENT self.bytesPerPixel]

/-- The four `glTexParameteri` calls. -/
def parameterCalls : List GLCall :=
  [.glTexParameteri .GL_TEXTURE_2D .GL_TEXTURE_MIN_FILTER .GL_LINEAR,
   .glTexParameteri .GL_TEXTURE_2D .GL_TEXTURE_MAG_FILTER .GL_LINEAR,
   .glTexParameteri .GL_TEXTURE_2D .GL_TEXTURE_WRAP_S .GL_CLAMP_TO_EDGE,
   .glTexParameteri .GL_TEXTURE_2D .GL_TEXTURE_WRAP_T .GL_CLAMP_TO_EDGE]

/-- The `glTexImage2D` call, made when the frame size is not the last one. -/
def allocCalls (self : ImageRendererES2) (width height : Nat) : List GLCall :=
  if self.lastFrameSize.1 ≠ width ∨ self.lastFrameSize.2 ≠ height then
    [.glTexImage2D .GL_TEXTURE_2D 0 self.glInternalFormat width height 0
      self.glFormat self.glType]
  else
    []

/-- The upload: one `glTexSubImage2D` when `bytesPerPixel * width == pitch` (the product
is taken in `unsigned`), else the loop over the rows. -/
def uploadCalls (abi : ABI) (self : ImageRendererES2) (width height pitch : Nat) :
    List GLCall × Status :=
  if (self.bytesPerPixel * width) % UINT_MOD = pitch then
    ([.glTexSubImage2D .GL_TEXTURE_2D 0 0 0 width height self.glFormat self.glType 0], .ok)
  else
    uploadRows abi self.glFormat self.glType width height pitch (height + 1) 0

/-- The conversion step: `if (pixelFormat == RETRO_PIXEL_FORMAT_XRGB8888)
convertDataFromRGB8888(data, pitch * height)`, the product taken in `size_t`. -/
def convertFrame (abi : ABI) (E : RetroPixelFormat) (self : ImageRendererES2)
    (data : List Byte) (height pitch : Nat) : Conversion :=
  if self.pixelFormat = E.RETRO_PIXEL_FORMAT_XRGB8888 then
    convertDataFromRGB8888 abi data ((pitch * height) % abi.sizeMod)
  else
    ⟨data, [], .ok⟩

/-- `ImageRendererES2::onNewFrame(data, width, height, pitch)`. -/
def onNewFrame (abi : ABI) (E : RetroPixelFormat) (self : ImageRendererES2)
    (data : List Byte) (width height pitch : Nat) : FrameResult :=
  let conv := convertFrame abi E self data height pitch
  match conv.status with
  | .ok =>
    let upload := uploadCalls abi self width height pitch
    let calls := bindCalls self ++ parameterCalls ++ allocCalls self width height ++ upload.1
    match upload.2 with
    | .ok =>
      ⟨Renderer.onNewFrame self width height, conv.mem,
        calls ++ [.glBindTexture .GL_TEXTURE_2D 0], conv.accesses, .ok⟩
    | stopped => ⟨self, conv.mem, calls, conv.accesses, stopped⟩
  | stopped => ⟨self, conv.mem, bindCalls self, conv.accesses, stopped⟩

end ImageRendererES2

/-! ## What the uploads leave in the texture -/

/-- The part of the OpenGL ES state the uploads depend on: the unpack alignment, the
texture bound to `GL_TEXTURE_2D`, and for every texture name the bytes of its level-0
image by row and byte column, in the layout of the transfer format (`none` where the
contents are undefined). -/
structure GLState where
  unpackAlignment : Nat
  boundTexture : Nat
  texel : Nat → Nat → Nat → Option Byte

/-- Bytes of one pixel in client memory (OpenGL ES 2.0, section 3.6.2). -/
def pixelBytes : GLenum → GLenum → Nat
  | .GL_RGBA, .GL_UNSIGNED_BYTE => 4
  | .GL_RGB, .GL_UNSIGNED_BYTE => 3
  | .GL_RGB, .GL_UNSIGNED_SHORT_5_6_5 => 2
  | _, _ => 0

/-- Distance in bytes between the starts of two rows in client memory: the row length
rounded up to the unpack alignment. -/
def rowStride (rowBytes alignment : Nat) : Nat :=
  alignment * ((rowBytes + alignment - 1) / alignment)

/-- Effect of one call, `client` being the frame buffer the pointers point into.
`glTexImage2D` with a null pointer leaves the image undefined; `glTexSubImage2D` copies
`height` rows of `width` pixels. Error conditions of the calls are not modelled, apart
from the values `glPixelStorei` accepts. -/
def GLState.exec (client : List Byte) (g : GLState) : GLCall → GLState
  | .glBindTexture _ texture => { g with boundTexture := texture }
  | .glPixelStorei .GL_UNPACK_ALIGNMENT param =>
    if param = 1 ∨ param = 2 ∨ param = 4 ∨ param = 8 then
      { g with unpackAlignment := param }
    else g
  | .glPixelStorei _ _ => g
  | .glTexParameteri _ _ _ => g
  | .glTexImage2D _ _ _ _ _ _ _ _ =>
    { g with texel := fun t r c => if t = g.boundTexture then none else g.texel t r c }
  | .glTexSubImage2D _ _ xoffset yoffset width height format type data =>
    let px := pixelBytes format type
    let stride := rowStride (width * px) g.unpackAlignment
    { g with texel := fun t r c =>
        if t = g.boundTexture ∧ yoffset ≤ r ∧ r < yoffset + height ∧
            xoffset * px ≤ c ∧ c < (xoffset + width) * px then
          client[data + (r - yoffset) * stride + (c - xoffset * px)]?
        else g.texel t r c }

/-- The calls of a frame, in order. -/
def GLState.run (client : List Byte) (g : GLState) (calls : List GLCall) : GLState :=
  calls.foldl (GLState.exec client) g

/-- The texture of the renderer after a frame: byte `c` of row `r`. The uploads read
the frame buffer as the conversion left it. -/
def FrameResult.texture (g : GLState) (res : FrameResult) (r c : Nat) : Option Byte :=
  (GLState.run res.data g res.calls).texel res.renderer.currentTexture r c

/-- A frame buffer of `height` rows of `pitch` bytes: the first `rowBytes` bytes of row
`r` are the pixels `image r`, the rest of the row is the padding `padding r`. -/
def frameBuffer (rowBytes pitch height : Nat) (image padding : Nat → Nat → Byte) :
    List Byte :=
  (List.range (pitch * height)).map fun j =>
    if j % pitch < rowBytes then image (j / pitch) (j % pitch)
    else padding (j / pitch) (j % pitch - rowBytes)

/-- An OpenGL ES state with nothing uploaded. -/
def GLState.initial : GLState := ⟨4, 0, fun _ _ _ => none⟩

/-- A renderer for the concrete scenarios: texture name 1, no frame seen yet,
configured by `setPixelFormat(RETRO_PIXEL_FORMAT_RGB565)`. -/
def sampleRenderer (E : RetroPixelFormat) : ImageRendererES2 :=
  ImageRendererES2.setPixelFormat E ⟨1, 0, .GL_RGB565, .GL_RGB, .GL_UNSIGNED_SHORT_5_6_5, 2, (0, 0)⟩
    E.RETRO_PIXEL_FORMAT_RGB565

/-- Index of the byte that the loop, run from counter value `i` to its end at `bound`,
leaves at position `j`. -/
def swapSource (bound i j : Nat) : Nat :=
  if i ≤ j ∧ j % 4 = 0 ∧ j < bound then j + 2
  else if i + 2 ≤ j ∧ j % 4 = 2 ∧ j - 2 < bound then j - 2
  else j

/-- Whether a call is a `glTexSubImage2D`. -/
def GLCall.isUpload : GLCall → Bool
  | .glTexSubImage2D _ _ _ _ _ _ _ _ _ => true
  | _ => false

/-- Whether a call is a `glTexImage2D`. -/
def GLCall.isAlloc : GLCall → Bool
  | .glTexImage2D _ _ _ _ _ _ _ _ => true
  | _ => false

/-- The uploads of a frame, in order. -/
def FrameResult.uploads (res : FrameResult) : List GLCall :=
  res.calls.filter GLCall.isUpload

/-- The upload of row `i` on the slow path. -/
def rowCall (abi : ABI) (glFormat glType : GLenum) (width pitch i : Nat) : GLCall :=
  .glTexSubImage2D .GL_TEXTURE_2D 0 0 i width 1 glFormat glType ((pitch * i) % abi.sizeMod)

/-- The preconditions of `onNewFrame` (spec, section 4.2) together with the ranges of the
machine integers the function computes with: the buffer lies in the address space, the
`int` row counter and the `int` byte counter of the conversion can reach their bounds,
and the `unsigned` product `bytesPerPixel * width` does not wrap. -/
structure ValidFrame (abi : ABI) (E : RetroPixelFormat) (renderer : ImageRendererES2)
    (data : List Byte) (width height pitch : Nat) : Prop where
  width_pos : 0 < width
  height_pos : 0 < height
  pitch_ge : renderer.bytesPerPixel * width ≤ pitch
  pitch_ge_four : renderer.pixelFormat = E.RETRO_PIXEL_FORMAT_XRGB8888 → 4 * width ≤ pitch
  data_ge : pitch * height ≤ data.length
  data_lt : data.length < abi.sizeMod
  height_le : height ≤ INT_MAX
  row_lt : renderer.bytesPerPixel * width < UINT_MOD
  size_le : renderer.pixelFormat = E.RETRO_PIXEL_FORMAT_XRGB8888 → pitch * height ≤ INT_MAX + 1

/-- The column whose byte the red/blue exchange puts at byte column `c` of a row of
four-byte pixels. -/
def swapColumn (c : Nat) : Nat :=
  if c % 4 = 0 then c + 2 else if c % 4 = 2 then c - 2 else c

/-- A sample image: the pixel bytes of row 0 are `0x10, 0x20, 0x30, 0x40`, repeating,
those of row `r` are `r` higher. -/
def sampleImage (r c : Nat) : Byte :=
  ⟨(0x10 * (c % 4 + 1) + r) % 256, Nat.mod_lt _ (by decide)⟩

/-- Sample padding: every byte `0xEE`. -/
def samplePadding (_r _c : Nat) : Byte := 0xEE

/-! ## The conversion loop -/

theorem sizeMod_ge (abi : ABI) : 2 ^ 32 ≤ abi.sizeMod := by
  cases abi <;> simp [ABI.sizeMod, ABI.sizeBits]

theorem loopBound_of_ge (abi : ABI) (size : Nat) (h4 : 4 ≤ size) (hlt : size < abi.sizeMod) :
    loopBound abi size = size - 4 := by
  unfold loopBound
  have h : size + abi.sizeMod - 4 = (size - 4) + abi.sizeMod := by omega
  rw [h, Nat.add_mod_right, Nat.mod_eq_of_lt (by omega)]

theorem loopBound_of_lt (abi : ABI) (size : Nat) (h4 : size < 4) :
    loopBound abi size = abi.sizeMod - 4 + size := by
  have := sizeMod_ge abi
  unfold loopBound
  rw [Nat.mod_eq_of_lt (by omega)]
  omega

theorem convertLoop_length (bound : Nat) :
    ∀ (fuel i : Nat) (mem : List Byte), (convertLoop bound fuel i mem).mem.length = mem.length := by
  intro fuel
  induction fuel with
  | zero => intro i mem; rfl
  | succ fuel ih =>
    intro i mem
    rw [convertLoop]
    split
    · split
      · rfl
      · rfl
      · split
        · simp [ih]
        · simp
    · rfl

/-- Every index the loop touches is below `bound + 2`, however the run ends. -/
theorem convertLoop_accesses (bound : Nat) :
    ∀ (fuel i : Nat) (mem : List Byte), ∀ idx ∈ (convertLoop bound fuel i mem).accesses,
      idx < bound + 2 := by
  intro fuel
  induction fuel with
  | zero => intro i mem idx h; simp [convertLoop] at h
  | succ fuel ih =>
    intro i mem idx h
    rw [convertLoop] at h
    split at h
    · rename_i hi
      split at h
      · simp at h; omega
      · simp at h; omega
      · split at h
        · simp only [List.mem_cons] at h
          rcases h with h | h | h | h | h
          · omega
          · omega
          · omega
          · omega
          · exact ih _ _ _ h
        · simp at h; omega
    · simp at h

/-- The recursion counter `data.length + 1` is never used up. -/
theorem convertLoop_fuel (bound : Nat) :
    ∀ (fuel i : Nat) (mem : List Byte), mem.length + 4 ≤ i + 4 * fuel → i ≤ mem.length + 1 →
      (convertLoop bound fuel i mem).status ≠ .outOfFuel := by
  intro fuel
  induction fuel with
  | zero => intro i mem h1 h2; omega
  | succ fuel ih =>
    intro i mem h1 h2
    rw [convertLoop]
    split
    · split
      · simp
      · simp
      · rename_i r b hr hb
        split
        · have hlen : i + 2 < mem.length := by
            rcases List.getElem?_eq_some_iff.mp hb with ⟨h, _⟩
            exact h
          apply ih
          · simp; omega
          · simp; omega
        · simp
    · simp

/-- No access leaves the buffer when `bound + 2` bytes are there. -/
theorem convertLoop_inBounds (bound : Nat) :
    ∀ (fuel i : Nat) (mem : List Byte), bound + 2 ≤ mem.length →
      (convertLoop bound fuel i mem).status ≠ .outOfBounds := by
  intro fuel
  induction fuel with
  | zero => intro i mem _; simp [convertLoop]
  | succ fuel ih =>
    intro i mem hlen
    rw [convertLoop]
    split
    · rename_i hi
      split
      · rename_i hn
        rw [List.getElem?_eq_none_iff] at hn
        omega
      · rename_i hn
        rw [List.getElem?_eq_none_iff] at hn
        omega
      · split
        · apply ih
          simpa using hlen
        · simp
    · simp

/-- One iteration exchanges the bytes at `i` and `i + 2` and nothing else. -/
theorem getElem?_swap (mem : List Byte) (i j : Nat) (r b : Byte)
    (hr : mem[i]? = some r) (hb : mem[i + 2]? = some b) :
    ((mem.set i b).set (i + 2) r)[j]? =
      mem[if j = i then i + 2 else if j = i + 2 then i else j]? := by
  rw [List.getElem?_set, List.getElem?_set]
  by_cases h2 : i + 2 = j
  · subst h2
    have hlen : i + 2 < mem.length := (List.getElem?_eq_some_iff.mp hb).1
    simp [hlen, hr]
  · by_cases h0 : i = j
    · subst h0
      have hlen : i < mem.length := (List.getElem?_eq_some_iff.mp hr).1
      simp [hlen, hb]
    · have h0' : ¬ j = i := fun h => h0 h.symm
      have h2' : ¬ j = i + 2 := fun h => h2 h.symm
      simp [h0, h2, h0', h2']

/-- A run that stays inside the buffer and inside `int` ends normally, and leaves at
every position the byte `swapSource` names. -/
theorem convertLoop_ok (bound : Nat) (hint : bound + 3 ≤ INT_MAX) :
    ∀ (fuel i : Nat) (mem : List Byte), i % 4 = 0 → bound + 2 ≤ mem.length →
      bound + 4 ≤ i + 4 * fuel → i ≤ bound + 3 →
      (convertLoop bound fuel i mem).status = .ok ∧
      ∀ j, (convertLoop bound fuel i mem).mem[j]? = mem[swapSource bound i j]? := by
  intro fuel
  induction fuel with
  | zero => intro i mem _ _ h1 h2; omega
  | succ fuel ih =>
    intro i mem hi4 hlen h1 h2
    rw [convertLoop]
    split
    · rename_i hi
      split
      · rename_i hn
        rw [List.getElem?_eq_none_iff] at hn
        omega
      · rename_i hn
        rw [List.getElem?_eq_none_iff] at hn
        omega
      · rename_i r b hr hb
        have hov : i + 4 ≤ INT_MAX := by omega
        rw [if_pos hov]
        have hlen1 : bound + 2 ≤ ((mem.set i b).set (i + 2) r).length := by simpa using hlen
        obtain ⟨hst, hmem⟩ := ih (i + 4) ((mem.set i b).set (i + 2) r) (by omega) hlen1
          (by omega) (by omega)
        refine ⟨hst, fun j => ?_⟩
        show (convertLoop bound fuel (i + 4) ((mem.set i b).set (i + 2) r)).mem[j]? = _
        rw [hmem j, getElem?_swap mem i _ r b hr hb]
        congr 1
        unfold swapSource
        split_ifs <;> omega
    · rename_i hi
      refine ⟨rfl, fun j => ?_⟩
      show mem[j]? = _
      congr 1
      unfold swapSource
      split_ifs <;> omega

/-- A run that stays inside the buffer but whose counter reaches `INT_MAX - 3` while
still below the bound ends in the overflow of `i += 4`. -/
theorem convertLoop_overflow (bound : Nat) (hint : INT_MAX < bound + 3) :
    ∀ (fuel i : Nat) (mem : List Byte), i % 4 = 0 → bound + 2 ≤ mem.length →
      INT_MAX + 1 ≤ i + 4 * fuel → i + 3 ≤ INT_MAX →
      (convertLoop bound fuel i mem).status = .signedOverflow := by
  intro fuel
  induction fuel with
  | zero => intro i mem _ _ h1 h2; omega
  | succ fuel ih =>
    intro i mem hi4 hlen h1 h2
    have hI : INT_MAX = 2 ^ 31 - 1 := rfl
    have hi : i < bound := by omega
    rw [convertLoop, if_pos hi]
    split
    · rename_i hn
      rw [List.getElem?_eq_none_iff] at hn
      omega
    · rename_i hn
      rw [List.getElem?_eq_none_iff] at hn
      omega
    · rename_i r b hr hb
      split
      · rename_i hov
        have hlen1 : bound + 2 ≤ ((mem.set i b).set (i + 2) r).length := by simpa using hlen
        exact ih (i + 4) _ (by omega) hlen1 (by omega) (by omega)
      · rfl

/-! ## The conversion as `onNewFrame` calls it -/

open ImageRendererES2

/-- The conversion of a buffer of at least four bytes that fits in `int` range: it ends
normally and `swapSource` gives the result. -/
theorem convert_ok (abi : ABI) (data : List Byte) (size : Nat) (h4 : 4 ≤ size)
    (hlen : size ≤ data.length) (haddr : data.length < abi.sizeMod) (hint : size ≤ INT_MAX + 1) :
    (convertDataFromRGB8888 abi data size).status = .ok ∧
    ∀ j, (convertDataFromRGB8888 abi data size).mem[j]? = data[swapSource (size - 4) 0 j]? := by
  unfold convertDataFromRGB8888
  rw [loopBound_of_ge abi size h4 (by omega)]
  exact convertLoop_ok (size - 4) (by omega) (data.length + 1) 0 data rfl (by omega)
    (by omega) (by omega)

theorem convert_accesses (abi : ABI) (data : List Byte) (size : Nat) (h4 : 4 ≤ size)
    (haddr : size < abi.sizeMod) :
    ∀ idx ∈ (convertDataFromRGB8888 abi data size).accesses, idx + 2 < size := by
  intro idx h
  unfold convertDataFromRGB8888 at h
  rw [loopBound_of_ge abi size h4 haddr] at h
  have := convertLoop_accesses _ _ _ _ idx h
  omega

theorem convert_fuel (abi : ABI) (data : List Byte) (size : Nat) :
    (convertDataFromRGB8888 abi data size).status ≠ .outOfFuel :=
  convertLoop_fuel _ _ _ _ (by omega) (by omega)

/-- A buffer longer than `INT_MAX + 1` bytes: the counter overflows before the loop
ends. -/
theorem convert_overflow (abi : ABI) (data : List Byte) (size : Nat)
    (hlen : size ≤ data.length) (haddr : data.length < abi.sizeMod) (hint : INT_MAX + 1 < size) :
    (convertDataFromRGB8888 abi data size).status = .signedOverflow := by
  have hI : INT_MAX = 2 ^ 31 - 1 := rfl
  unfold convertDataFromRGB8888
  rw [loopBound_of_ge abi size (by omega) (by omega)]
  exact convertLoop_overflow (size - 4) (by omega) (data.length + 1) 0 data rfl (by omega)
    (by omega) (by omega)

/-- With a bound above `INT_MAX` the loop cannot end normally: the counter never gets
there. -/
theorem convertLoop_never_ok (bound : Nat) (hb : INT_MAX < bound) :
    ∀ (fuel i : Nat) (mem : List Byte), i % 4 = 0 → i + 3 ≤ INT_MAX →
      (convertLoop bound fuel i mem).status ≠ .ok := by
  intro fuel
  induction fuel with
  | zero => intro i mem _ _; simp [convertLoop]
  | succ fuel ih =>
    intro i mem hi4 hi
    have hI : INT_MAX = 2 ^ 31 - 1 := rfl
    rw [convertLoop, if_pos (by omega)]
    split
    · simp
    · simp
    · split
      · exact ih (i + 4) _ (by omega) (by omega)
      · simp

/-- An extent of fewer than four bytes always runs into undefined behaviour: `size - 4`
wraps, and the run ends outside the buffer or in the overflow of the counter. -/
theorem convert_short_undefined (abi : ABI) (data : List Byte) (size : Nat) (h : size < 4) :
    (convertDataFromRGB8888 abi data size).status = .outOfBounds ∨
    (convertDataFromRGB8888 abi data size).status = .signedOverflow := by
  have hge := sizeMod_ge abi
  have hI : INT_MAX = 2 ^ 31 - 1 := rfl
  have hne : (convertDataFromRGB8888 abi data size).status ≠ .ok := by
    unfold convertDataFromRGB8888
    rw [loopBound_of_lt abi size h]
    exact convertLoop_never_ok _ (by omega) _ 0 data rfl (by omega)
  have hfuel := convert_fuel abi data size
  cases hs : (convertDataFromRGB8888 abi data size).status with
  | ok => exact absurd hs hne
  | outOfBounds => exact Or.inl rfl
  | signedOverflow => exact Or.inr rfl
  | outOfFuel => exact absurd hs hfuel

/-- Every four-byte group that ends before the last four bytes of the extent has its
first and third byte exchanged. -/
theorem convert_swaps_group (abi : ABI) (data : List Byte) (size k : Nat) (h4 : 4 ≤ size)
    (hlen : size ≤ data.length) (haddr : data.length < abi.sizeMod) (hint : size ≤ INT_MAX + 1)
    (hk : 4 * k + 4 < size) :
    (convertDataFromRGB8888 abi data size).mem[4 * k]? = data[4 * k + 2]? ∧
    (convertDataFromRGB8888 abi data size).mem[4 * k + 1]? = data[4 * k + 1]? ∧
    (convertDataFromRGB8888 abi data size).mem[4 * k + 2]? = data[4 * k]? ∧
    (convertDataFromRGB8888 abi data size).mem[4 * k + 3]? = data[4 * k + 3]? := by
  obtain ⟨_, hmem⟩ := convert_ok abi data size h4 hlen haddr hint
  refine ⟨?_, ?_, ?_, ?_⟩ <;>
  · rw [hmem]
    congr 1
    unfold swapSource
    split_ifs <;> omega

/-- The bytes from `4 * ((size - 1) / 4)` on are left as they were: the trailing bytes of
an extent that is not a multiple of 4, and the whole last group of one that is. -/
theorem convert_keeps_tail (abi : ABI) (data : List Byte) (size j : Nat) (h4 : 4 ≤ size)
    (hlen : size ≤ data.length) (haddr : data.length < abi.sizeMod) (hint : size ≤ INT_MAX + 1)
    (hj : 4 * ((size - 1) / 4) ≤ j) :
    (convertDataFromRGB8888 abi data size).mem[j]? = data[j]? := by
  obtain ⟨_, hmem⟩ := convert_ok abi data size h4 hlen haddr hint
  rw [hmem]
  congr 1
  unfold swapSource
  split_ifs <;> omega

/-- Converting twice gives the buffer back, for every extent of at least four bytes that
the `int` counter can cover. -/
theorem convert_twice (abi : ABI) (data : List Byte) (size : Nat) (h4 : 4 ≤ size)
    (hlen : size ≤ data.length) (haddr : data.length < abi.sizeMod) (hint : size ≤ INT_MAX + 1) :
    (convertDataFromRGB8888 abi data size).status = .ok ∧
    (convertDataFromRGB8888 abi (convertDataFromRGB8888 abi data size).mem size).status = .ok ∧
    (convertDataFromRGB8888 abi (convertDataFromRGB8888 abi data size).mem size).mem = data := by
  obtain ⟨hst, hmem⟩ := convert_ok abi data size h4 hlen haddr hint
  have hl : (convertDataFromRGB8888 abi data size).mem.length = data.length :=
    convertLoop_length _ _ _ _
  obtain ⟨hst2, hmem2⟩ := convert_ok abi (convertDataFromRGB8888 abi data size).mem size h4
    (by rw [hl]; exact hlen) (by rw [hl]; exact haddr) hint
  refine ⟨hst, hst2, ?_⟩
  apply List.ext_getElem?
  intro j
  rw [hmem2, hmem]
  congr 1
  unfold swapSource
  split_ifs <;> omega

/-- The accesses stay inside the extent, and inside the buffer, when the extent has at
least four bytes. -/
theorem convert_in_extent (abi : ABI) (data : List Byte) (size : Nat) (h4 : 4 ≤ size)
    (hlen : size ≤ data.length) (haddr : data.length < abi.sizeMod) :
    (∀ idx ∈ (convertDataFromRGB8888 abi data size).accesses, idx < size) ∧
    (convertDataFromRGB8888 abi data size).status ≠ .outOfBounds := by
  refine ⟨fun idx h => ?_, ?_⟩
  · have := convert_accesses abi data size h4 (by omega) idx h
    omega
  · unfold convertDataFromRGB8888
    apply convertLoop_inBounds
    rw [loopBound_of_ge abi size h4 (by omega)]
    omega

theorem onNewFrame_data (abi : ABI) (E : RetroPixelFormat) (self : ImageRendererES2)
    (data : List Byte) (width height pitch : Nat) :
    (onNewFrame abi E self data width height pitch).data =
      (convertFrame abi E self data height pitch).mem := by
  unfold onNewFrame
  dsimp only
  split
  · split <;> rfl
  · rfl

theorem onNewFrame_accesses (abi : ABI) (E : RetroPixelFormat) (self : ImageRendererES2)
    (data : List Byte) (width height pitch : Nat) :
    (onNewFrame abi E self data width height pitch).accesses =
      (convertFrame abi E self data height pitch).accesses := by
  unfold onNewFrame
  dsimp only
  split
  · split <;> rfl
  · rfl

/-! ## The row loop -/

theorem uploadRows_fuel (abi : ABI) (glFormat glType : GLenum) (width height pitch : Nat) :
    ∀ (fuel i : Nat), height + 1 ≤ i + fuel → i ≤ height →
      (uploadRows abi glFormat glType width height pitch fuel i).2 ≠ .outOfFuel := by
  intro fuel
  induction fuel with
  | zero => intro i h1 h2; omega
  | succ fuel ih =>
    intro i h1 h2
    rw [uploadRows]
    split
    · split
      · exact ih (i + 1) (by omega) (by omega)
      · simp
    · simp

theorem uploadRows_ok (abi : ABI) (glFormat glType : GLenum) (width height pitch : Nat)
    (hh : height ≤ INT_MAX) :
    ∀ (fuel i : Nat), height + 1 ≤ i + fuel → i ≤ height →
      uploadRows abi glFormat glType width height pitch fuel i =
        ((List.range' i (height - i)).map (rowCall abi glFormat glType width pitch), .ok) := by
  intro fuel
  induction fuel with
  | zero => intro i h1 h2; omega
  | succ fuel ih =>
    intro i h1 h2
    rw [uploadRows]
    split
    · rename_i hi
      have hov : i + 1 ≤ INT_MAX := by omega
      rw [if_pos hov]
      have hsub : height - i = (height - (i + 1)) + 1 := by omega
      rw [ih (i + 1) (by omega) (by omega), hsub, List.range'_succ]
      rfl
    · rename_i hi
      have hsub : height - i = 0 := by omega
      rw [hsub]
      rfl

theorem uploadRows_overflow (abi : ABI) (glFormat glType : GLenum) (width height pitch : Nat)
    (hh : INT_MAX < height) :
    ∀ (fuel i : Nat), INT_MAX + 1 ≤ i + fuel → i ≤ INT_MAX →
      (uploadRows abi glFormat glType width height pitch fuel i).2 = .signedOverflow ∧
      (uploadRows abi glFormat glType width height pitch fuel i).1.length = INT_MAX + 1 - i := by
  intro fuel
  induction fuel with
  | zero => intro i h1 h2; omega
  | succ fuel ih =>
    intro i h1 h2
    have hi : i < height := by omega
    rw [uploadRows, if_pos hi]
    split
    · rename_i hov
      obtain ⟨h1', h2'⟩ := ih (i + 1) (by omega) (by omega)
      refine ⟨h1', ?_⟩
      simp only [List.length_cons, h2']
      omega
    · rename_i hov
      refine ⟨rfl, ?_⟩
      simp only [List.length_singleton]
      omega

/-! ## Shape of a frame that completes -/

theorem onNewFrame_of_ok (abi : ABI) (E : RetroPixelFormat) (self : ImageRendererES2)
    (data : List Byte) (width height pitch : Nat)
    (hc : (convertFrame abi E self data height pitch).status = .ok)
    (hu : (uploadCalls abi self width height pitch).2 = .ok) :
    onNewFrame abi E self data width height pitch =
      ⟨Renderer.onNewFrame self width height, (convertFrame abi E self data height pitch).mem,
        bindCalls self ++ parameterCalls ++ allocCalls self width height ++
          (uploadCalls abi self width height pitch).1 ++ [.glBindTexture .GL_TEXTURE_2D 0],
        (convertFrame abi E self data height pitch).accesses, .ok⟩ := by
  unfold onNewFrame
  simp only [hc, hu]

theorem convertFrame_of_ne (abi : ABI) (E : RetroPixelFormat) (self : ImageRendererES2)
    (data : List Byte) (height pitch : Nat)
    (h : self.pixelFormat ≠ E.RETRO_PIXEL_FORMAT_XRGB8888) :
    convertFrame abi E self data height pitch = ⟨data, [], .ok⟩ := by
  unfold convertFrame
  rw [if_neg h]

theorem convertFrame_of_eq (abi : ABI) (E : RetroPixelFormat) (self : ImageRendererES2)
    (data : List Byte) (height pitch : Nat)
    (h : self.pixelFormat = E.RETRO_PIXEL_FORMAT_XRGB8888) :
    convertFrame abi E self data height pitch =
      convertDataFromRGB8888 abi data ((pitch * height) % abi.sizeMod) := by
  unfold convertFrame
  rw [if_pos h]

theorem size_ge_four (width height pitch : Nat) (hw : 0 < width) (hh : 0 < height)
    (hp : 4 * width ≤ pitch) : 4 ≤ pitch * height := by
  calc 4 ≤ pitch * 1 := by omega
    _ ≤ pitch * height := Nat.mul_le_mul_left pitch hh

theorem convertFrame_ok (abi : ABI) (E : RetroPixelFormat) (self : ImageRendererES2)
    (data : List Byte) (width height pitch : Nat)
    (hv : ValidFrame abi E self data width height pitch) :
    (convertFrame abi E self data height pitch).status = .ok := by
  by_cases h : self.pixelFormat = E.RETRO_PIXEL_FORMAT_XRGB8888
  · rw [convertFrame_of_eq abi E self data height pitch h]
    have h4 := size_ge_four width height pitch hv.width_pos hv.height_pos (hv.pitch_ge_four h)
    have hlt : pitch * height < abi.sizeMod := lt_of_le_of_lt hv.data_ge hv.data_lt
    rw [Nat.mod_eq_of_lt hlt]
    exact (convert_ok abi data _ h4 hv.data_ge hv.data_lt (hv.size_le h)).1
  · rw [convertFrame_of_ne abi E self data height pitch h]

theorem uploadCalls_fast (abi : ABI) (self : ImageRendererES2) (width height pitch : Nat)
    (hrow : self.bytesPerPixel * width < UINT_MOD) (hp : pitch = self.bytesPerPixel * width) :
    uploadCalls abi self width height pitch =
      ([.glTexSubImage2D .GL_TEXTURE_2D 0 0 0 width height self.glFormat self.glType 0],
        .ok) := by
  unfold uploadCalls
  rw [Nat.mod_eq_of_lt hrow, if_pos hp.symm]

theorem uploadCalls_slow (abi : ABI) (self : ImageRendererES2) (width height pitch : Nat)
    (hrow : self.bytesPerPixel * width < UINT_MOD) (hh : height ≤ INT_MAX)
    (hp : pitch ≠ self.bytesPerPixel * width) :
    uploadCalls abi self width height pitch =
      ((List.range height).map (rowCall abi self.glFormat self.glType width pitch), .ok) := by
  unfold uploadCalls
  rw [Nat.mod_eq_of_lt hrow, if_neg (fun h => hp h.symm),
    uploadRows_ok abi self.glFormat self.glType width height pitch hh (height + 1) 0 (by omega) (by omega),
    List.range_eq_range']
  rfl

theorem uploadCalls_ok (abi : ABI) (self : ImageRendererES2) (width height pitch : Nat)
    (hrow : self.bytesPerPixel * width < UINT_MOD) (hh : height ≤ INT_MAX) :
    (uploadCalls abi self width height pitch).2 = .ok := by
  by_cases hp : pitch = self.bytesPerPixel * width
  · rw [uploadCalls_fast abi self width height pitch hrow hp]
  · rw [uploadCalls_slow abi self width height pitch hrow hh hp]

/-- A valid frame is processed to the end. -/
theorem onNewFrame_ok (abi : ABI) (E : RetroPixelFormat) (self : ImageRendererES2)
    (data : List Byte) (width height pitch : Nat)
    (hv : ValidFrame abi E self data width height pitch) :
    (onNewFrame abi E self data width height pitch).status = .ok := by
  rw [onNewFrame_of_ok abi E self data width height pitch
    (convertFrame_ok abi E self data width height pitch hv)
    (uploadCalls_ok abi self width height pitch hv.row_lt hv.height_le)]

/-! ## The calls of a frame -/

theorem uploadRows_isUpload (abi : ABI) (glFormat glType : GLenum) (width height pitch : Nat) :
    ∀ (fuel i : Nat), ∀ c ∈ (uploadRows abi glFormat glType width height pitch fuel i).1,
      c.isUpload = true ∧ c.isAlloc = false := by
  intro fuel
  induction fuel with
  | zero => intro i c h; simp [uploadRows] at h
  | succ fuel ih =>
    intro i c h
    rw [uploadRows] at h
    split at h
    · split at h
      · simp only [List.mem_cons] at h
        rcases h with h | h
        · subst h; exact ⟨rfl, rfl⟩
        · exact ih _ _ h
      · simp only [List.mem_singleton] at h
        subst h; exact ⟨rfl, rfl⟩
    · simp at h

theorem uploadRows_status (abi : ABI) (glFormat glType : GLenum) (width height pitch : Nat) :
    ∀ (fuel i : Nat),
      (uploadRows abi glFormat glType width height pitch fuel i).2 ≠ .outOfBounds := by
  intro fuel
  induction fuel with
  | zero => intro i; simp [uploadRows]
  | succ fuel ih =>
    intro i
    rw [uploadRows]
    split
    · split
      · exact ih _
      · simp
    · simp

theorem uploadCalls_isUpload (abi : ABI) (self : ImageRendererES2) (width height pitch : Nat) :
    ∀ c ∈ (uploadCalls abi self width height pitch).1, c.isUpload = true ∧ c.isAlloc = false := by
  intro c h
  unfold uploadCalls at h
  split at h
  · simp only [List.mem_singleton] at h
    subst h; exact ⟨rfl, rfl⟩
  · exact uploadRows_isUpload _ _ _ _ _ _ _ _ c h

theorem uploadCalls_filter_isUpload (abi : ABI) (self : ImageRendererES2)
    (width height pitch : Nat) :
    (uploadCalls abi self width height pitch).1.filter GLCall.isUpload =
      (uploadCalls abi self width height pitch).1 :=
  List.filter_eq_self.mpr fun c h => (uploadCalls_isUpload abi self width height pitch c h).1

theorem allocCalls_filter_isUpload (self : ImageRendererES2) (width height : Nat) :
    (allocCalls self width height).filter GLCall.isUpload = [] := by
  unfold allocCalls
  split <;> rfl

/-- The uploads of a frame are those of the upload step, if the conversion got there. -/
theorem onNewFrame_uploads (abi : ABI) (E : RetroPixelFormat) (self : ImageRendererES2)
    (data : List Byte) (width height pitch : Nat) :
    (onNewFrame abi E self data width height pitch).uploads =
      if (convertFrame abi E self data height pitch).status = .ok then
        (uploadCalls abi self width height pitch).1
      else [] := by
  unfold onNewFrame FrameResult.uploads
  dsimp only
  split
  · rename_i hc
    rw [if_pos hc]
    split <;>
      simp [List.filter_append, uploadCalls_filter_isUpload, allocCalls_filter_isUpload,
        bindCalls, parameterCalls, GLCall.isUpload]
  · rename_i hc
    rw [if_neg (by simpa using hc)]
    rfl

theorem onNewFrame_status (abi : ABI) (E : RetroPixelFormat) (self : ImageRendererES2)
    (data : List Byte) (width height pitch : Nat) :
    (onNewFrame abi E self data width height pitch).status =
      if (convertFrame abi E self data height pitch).status = .ok then
        (uploadCalls abi self width height pitch).2
      else (convertFrame abi E self data height pitch).status := by
  unfold onNewFrame
  dsimp only
  split
  · rename_i hc
    rw [if_pos hc]
    split
    · rename_i hu; exact hu.symm
    · rfl
  · rename_i hc
    rw [if_neg (by simpa using hc)]

theorem uploadCalls_status (abi : ABI) (self : ImageRendererES2) (width height pitch : Nat) :
    (uploadCalls abi self width height pitch).2 ≠ .outOfBounds ∧
    (uploadCalls abi self width height pitch).2 ≠ .outOfFuel := by
  unfold uploadCalls
  split
  · simp
  · exact ⟨uploadRows_status _ _ _ _ _ _ _ _,
      uploadRows_fuel _ _ _ _ _ _ _ _ (by omega) (by omega)⟩

/-- The recursion counters are never used up: a frame ends normally or at an undefined
behaviour of the C++ code. -/
theorem onNewFrame_fuel (abi : ABI) (E : RetroPixelFormat) (self : ImageRendererES2)
    (data : List Byte) (width height pitch : Nat) :
    (onNewFrame abi E self data width height pitch).status ≠ .outOfFuel := by
  rw [onNewFrame_status]
  split
  · exact (uploadCalls_status abi self width height pitch).2
  · unfold convertFrame
    split
    · exact convert_fuel _ _ _
    · simp

/-! ## The texture after a frame -/

theorem rowStride_mul (width alignment : Nat) (h : 0 < alignment) :
    rowStride (width * alignment) alignment = alignment * width := by
  unfold rowStride
  have h1 : width * alignment + alignment - 1 = alignment * width + (alignment - 1) := by
    rw [Nat.mul_comm]; omega
  rw [h1, Nat.mul_add_div h, Nat.div_eq_of_lt (by omega), Nat.add_zero]

theorem run_append (client : List Byte) (g : GLState) (xs ys : List GLCall) :
    GLState.run client g (xs ++ ys) = GLState.run client (GLState.run client g xs) ys := by
  unfold GLState.run
  rw [List.foldl_append]

/-- After the calls that precede the upload the renderer's texture is bound and the
unpack alignment is `bytesPerPixel`. -/
theorem run_setup (client : List Byte) (g : GLState) (self : ImageRendererES2)
    (width height : Nat) (hb : self.bytesPerPixel = 2 ∨ self.bytesPerPixel = 4) :
    (GLState.run client g
      (bindCalls self ++ parameterCalls ++ allocCalls self width height)).boundTexture =
        self.currentTexture ∧
    (GLState.run client g
      (bindCalls self ++ parameterCalls ++ allocCalls self width height)).unpackAlignment =
        self.bytesPerPixel := by
  unfold allocCalls
  split <;> rcases hb with hb | hb <;>
    simp [GLState.run, GLState.exec, bindCalls, parameterCalls, hb]

/-- The row uploads `i, ..., i + n - 1` leave row `r` of the bound texture equal to the
bytes of the frame buffer from `pitch * r` on. -/
theorem run_rows (abi : ABI) (client : List Byte) (glFormat glType : GLenum)
    (width pitch : Nat) :
    ∀ (n i : Nat) (g : GLState),
      (GLState.run client g
        ((List.range' i n).map (rowCall abi glFormat glType width pitch))).boundTexture =
          g.boundTexture ∧
      ∀ t r c, (GLState.run client g
        ((List.range' i n).map (rowCall abi glFormat glType width pitch))).texel t r c =
          if t = g.boundTexture ∧ i ≤ r ∧ r < i + n ∧ c < width * pixelBytes glFormat glType
          then client[(pitch * r) % abi.sizeMod + c]?
          else g.texel t r c := by
  intro n
  induction n with
  | zero =>
    intro i g
    refine ⟨rfl, fun t r c => ?_⟩
    have : ¬ (t = g.boundTexture ∧ i ≤ r ∧ r < i + 0 ∧ c < width * pixelBytes glFormat glType) := by
      omega
    rw [if_neg this]
    rfl
  | succ n ih =>
    intro i g
    rw [List.range'_succ, List.map_cons]
    have hrun : ∀ (x : GLCall) (xs : List GLCall),
        GLState.run client g (x :: xs) = GLState.run client (GLState.exec client g x) xs :=
      fun _ _ => rfl
    rw [hrun]
    obtain ⟨hb, ht⟩ := ih (i + 1)
      (GLState.exec client g (rowCall abi glFormat glType width pitch i))
    have hb1 : (GLState.exec client g (rowCall abi glFormat glType width pitch i)).boundTexture =
        g.boundTexture := rfl
    refine ⟨by rw [hb, hb1], fun t r c => ?_⟩
    rw [ht t r c, hb1]
    by_cases h1 : t = g.boundTexture ∧ i + 1 ≤ r ∧ r < i + 1 + n ∧
        c < width * pixelBytes glFormat glType
    · rw [if_pos h1, if_pos (by omega)]
    · rw [if_neg h1]
      show (if t = g.boundTexture ∧ i ≤ r ∧ r < i + 1 ∧
            0 * pixelBytes glFormat glType ≤ c ∧
            c < (0 + width) * pixelBytes glFormat glType then
          client[(pitch * i) % abi.sizeMod +
            (r - i) * rowStride (width * pixelBytes glFormat glType) g.unpackAlignment +
            (c - 0 * pixelBytes glFormat glType)]?
        else g.texel t r c) = _
      by_cases h2 : t = g.boundTexture ∧ i ≤ r ∧ r < i + (n + 1) ∧
          c < width * pixelBytes glFormat glType
      · have hr : r = i := by omega
        subst hr
        rw [if_pos h2, if_pos (by simp only [Nat.zero_mul, Nat.zero_add]; omega)]
        simp
      · rw [if_neg h2, if_neg (by simp only [Nat.zero_mul, Nat.zero_add]; omega)]

/-- After a valid frame, byte `c` of row `r` of the texture is the byte at
`pitch * r + c` of the frame buffer as the conversion left it, on either upload path. -/
theorem texture_eq (abi : ABI) (E : RetroPixelFormat) (self : ImageRendererES2)
    (data : List Byte) (width height pitch : Nat) (g : GLState)
    (hv : ValidFrame abi E self data width height pitch)
    (hb : self.bytesPerPixel = 2 ∨ self.bytesPerPixel = 4)
    (hpx : pixelBytes self.glFormat self.glType = self.bytesPerPixel)
    (r c : Nat) (hr : r < height) (hcol : c < self.bytesPerPixel * width) :
    (onNewFrame abi E self data width height pitch).texture g r c =
      (convertFrame abi E self data height pitch).mem[pitch * r + c]? := by
  have hc := convertFrame_ok abi E self data width height pitch hv
  have hu := uploadCalls_ok abi self width height pitch hv.row_lt hv.height_le
  unfold FrameResult.texture
  rw [onNewFrame_of_ok abi E self data width height pitch hc hu]
  dsimp only
  rw [run_append, run_append]
  obtain ⟨hbound, halign⟩ := run_setup (convertFrame abi E self data height pitch).mem g self
    width height hb
  generalize GLState.run (convertFrame abi E self data height pitch).mem g
    (bindCalls self ++ parameterCalls ++ allocCalls self width height) = g2 at hbound halign
  have hcur : (Renderer.onNewFrame self width height).currentTexture = self.currentTexture := rfl
  rw [hcur]
  have hunbind : ∀ g3 : GLState, (GLState.run (convertFrame abi E self data height pitch).mem g3
      [GLCall.glBindTexture GLenum.GL_TEXTURE_2D 0]).texel = g3.texel := fun _ => rfl
  rw [hunbind]
  have hcol' : c < width * self.bytesPerPixel := by rw [Nat.mul_comm]; exact hcol
  by_cases hp : pitch = self.bytesPerPixel * width
  · rw [uploadCalls_fast abi self width height pitch hv.row_lt hp]
    show (if self.currentTexture = g2.boundTexture ∧ 0 ≤ r ∧ r < 0 + height ∧
          0 * pixelBytes self.glFormat self.glType ≤ c ∧
          c < (0 + width) * pixelBytes self.glFormat self.glType then
        (convertFrame abi E self data height pitch).mem[0 +
          (r - 0) * rowStride (width * pixelBytes self.glFormat self.glType) g2.unpackAlignment +
          (c - 0 * pixelBytes self.glFormat self.glType)]?
      else g2.texel self.currentTexture r c) = _
    rw [hpx, halign, hbound, rowStride_mul width self.bytesPerPixel (by omega),
      if_pos ⟨rfl, Nat.zero_le r, by omega, by omega, by rw [Nat.zero_add]; exact hcol'⟩]
    congr 1
    rw [hp]
    simp only [Nat.zero_mul, Nat.zero_add, Nat.sub_zero]
    rw [Nat.mul_comm r]
  · rw [uploadCalls_slow abi self width height pitch hv.row_lt hv.height_le hp,
      List.range_eq_range']
    obtain ⟨_, ht⟩ := run_rows abi (convertFrame abi E self data height pitch).mem
      self.glFormat self.glType width pitch height 0 g2
    rw [ht, hpx, hbound, if_pos (by omega)]
    have hlt : pitch * r < abi.sizeMod :=
      lt_of_le_of_lt (Nat.mul_le_mul_left pitch (Nat.le_of_lt hr))
        (lt_of_le_of_lt hv.data_ge hv.data_lt)
    rw [Nat.mod_eq_of_lt hlt]

/-! ## Frame buffers with and without padding -/

theorem frameBuffer_length (rowBytes pitch height : Nat) (image padding : Nat → Nat → Byte) :
    (frameBuffer rowBytes pitch height image padding).length = pitch * height := by
  simp [frameBuffer]

theorem mul_succ_le (pitch r height : Nat) (hr : r < height) :
    pitch * r + pitch ≤ pitch * height :=
  calc pitch * r + pitch = pitch * (r + 1) := by rw [Nat.mul_succ]
    _ ≤ pitch * height := Nat.mul_le_mul_left pitch hr

theorem frameBuffer_getElem? (rowBytes pitch height : Nat) (image padding : Nat → Nat → Byte)
    (r c : Nat) (hr : r < height) (hc : c < pitch) :
    (frameBuffer rowBytes pitch height image padding)[pitch * r + c]? =
      some (if c < rowBytes then image r c else padding r (c - rowBytes)) := by
  have hle := mul_succ_le pitch r height hr
  have hlt : pitch * r + c < pitch * height := by omega
  unfold frameBuffer
  rw [List.getElem?_map, List.getElem?_range hlt, Option.map_some',
    Nat.mul_add_mod, Nat.mod_eq_of_lt hc, Nat.mul_add_div (by omega),
    Nat.div_eq_of_lt hc, Nat.add_zero]

theorem swapSource_group (bound base c : Nat) (hbase : base % 4 = 0)
    (hlt : base + (c - c % 4) < bound) :
    swapSource bound 0 (base + c) = base + swapColumn c := by
  unfold swapSource swapColumn
  split_ifs <;> omega

theorem swapColumn_lt (c width : Nat) (hc : c < 4 * width) : swapColumn c < 4 * width := by
  unfold swapColumn
  split_ifs <;> omega

theorem mul_mod_four (pitch r : Nat) (hp : pitch % 4 = 0) : (pitch * r) % 4 = 0 := by
  rw [Nat.mul_mod, hp, Nat.zero_mul]

theorem setPixelFormat_of_eq (E : RetroPixelFormat) (self : ImageRendererES2) (fmt : Int)
    (h : fmt = E.RETRO_PIXEL_FORMAT_XRGB8888) :
    (setPixelFormat E self fmt).pixelFormat = E.RETRO_PIXEL_FORMAT_XRGB8888 ∧
    (setPixelFormat E self fmt).bytesPerPixel = 4 ∧
    pixelBytes (setPixelFormat E self fmt).glFormat (setPixelFormat E self fmt).glType = 4 := by
  simp [setPixelFormat, h, pixelBytes]

theorem setPixelFormat_of_ne (E : RetroPixelFormat) (self : ImageRendererES2) (fmt : Int)
    (h : fmt ≠ E.RETRO_PIXEL_FORMAT_XRGB8888) :
    (setPixelFormat E self fmt).pixelFormat ≠ E.RETRO_PIXEL_FORMAT_XRGB8888 ∧
    (setPixelFormat E self fmt).bytesPerPixel = 2 ∧
    pixelBytes (setPixelFormat E self fmt).glFormat (setPixelFormat E self fmt).glType = 2 := by
  simp [setPixelFormat, h, pixelBytes]

/-- The texture after a frame whose rows are `image` followed by padding: the logical
pixels, with red and blue exchanged under XRGB8888 where the conversion loop reaches the
pixel (`hproc`). -/
theorem texture_of_frame (abi : ABI) (E : RetroPixelFormat) (self : ImageRendererES2)
    (g : GLState) (fmt : Int) (image padding : Nat → Nat → Byte) (w h pitch : Nat)
    (hw : 0 < w) (hh : 0 < h)
    (hpitch : (setPixelFormat E self fmt).bytesPerPixel * w ≤ pitch)
    (hp4 : fmt = E.RETRO_PIXEL_FORMAT_XRGB8888 → pitch % 4 = 0)
    (hrows : h ≤ INT_MAX) (haddr : pitch * h < abi.sizeMod)
    (hrow : (setPixelFormat E self fmt).bytesPerPixel * w < UINT_MOD)
    (hint : fmt = E.RETRO_PIXEL_FORMAT_XRGB8888 → pitch * h ≤ INT_MAX + 1)
    (r c : Nat) (hr : r < h) (hc : c < (setPixelFormat E self fmt).bytesPerPixel * w)
    (hproc : fmt = E.RETRO_PIXEL_FORMAT_XRGB8888 → pitch * r + (c - c % 4) + 4 < pitch * h) :
    (onNewFrame abi E (setPixelFormat E self fmt)
      (frameBuffer ((setPixelFormat E self fmt).bytesPerPixel * w) pitch h image padding)
      w h pitch).status = .ok ∧
    (onNewFrame abi E (setPixelFormat E self fmt)
      (frameBuffer ((setPixelFormat E self fmt).bytesPerPixel * w) pitch h image padding)
      w h pitch).texture g r c =
      some (image r (if fmt = E.RETRO_PIXEL_FORMAT_XRGB8888 then swapColumn c else c)) := by
  have hlen := frameBuffer_length ((setPixelFormat E self fmt).bytesPerPixel * w) pitch h
    image padding
  by_cases hf : fmt = E.RETRO_PIXEL_FORMAT_XRGB8888
  · obtain ⟨hpf, hbpp, hpx⟩ := setPixelFormat_of_eq E self fmt hf
    have hv : ValidFrame abi E (setPixelFormat E self fmt)
        (frameBuffer ((setPixelFormat E self fmt).bytesPerPixel * w) pitch h image padding)
        w h pitch :=
      ⟨hw, hh, hpitch, fun _ => by rw [hbpp] at hpitch; exact hpitch, by rw [hlen],
        by rw [hlen]; exact haddr, hrows, hrow, fun _ => hint hf⟩
    refine ⟨onNewFrame_ok _ _ _ _ _ _ _ hv, ?_⟩
    rw [texture_eq abi E _ _ w h pitch g hv (Or.inr hbpp) (by rw [hpx, hbpp]) r c hr hc,
      convertFrame_of_eq _ _ _ _ _ _ hpf, Nat.mod_eq_of_lt haddr, if_pos hf]
    rw [hbpp] at hc hpitch
    have h4 := size_ge_four w h pitch hw hh hpitch
    rw [(convert_ok abi _ (pitch * h) h4 (by rw [hlen]) (by rw [hlen]; exact haddr)
        (hint hf)).2 (pitch * r + c),
      swapSource_group (pitch * h - 4) (pitch * r) c (mul_mod_four pitch r (hp4 hf))
        (by have := hproc hf; omega),
      frameBuffer_getElem? _ pitch h image padding r (swapColumn c) hr
        (by have := swapColumn_lt c w hc; omega),
      hbpp, if_pos (swapColumn_lt c w hc)]
  · obtain ⟨hpf, hbpp, hpx⟩ := setPixelFormat_of_ne E self fmt hf
    have hv : ValidFrame abi E (setPixelFormat E self fmt)
        (frameBuffer ((setPixelFormat E self fmt).bytesPerPixel * w) pitch h image padding)
        w h pitch :=
      ⟨hw, hh, hpitch, fun hx => absurd hx hpf, by rw [hlen],
        by rw [hlen]; exact haddr, hrows, hrow, fun hx => absurd hx hpf⟩
    refine ⟨onNewFrame_ok _ _ _ _ _ _ _ hv, ?_⟩
    rw [texture_eq abi E _ _ w h pitch g hv (Or.inl hbpp) (by rw [hpx, hbpp]) r c hr hc,
      convertFrame_of_ne _ _ _ _ _ _ hpf, if_neg hf]
    show (frameBuffer ((setPixelFormat E self fmt).bytesPerPixel * w) pitch h image
      padding)[pitch * r + c]? = _
    rw [frameBuffer_getElem? _ pitch h image padding r c hr (by omega), if_pos hc]

/-- The upload step ends normally whenever the `int` row counter can reach `height`,
on either path. -/
theorem uploadCalls_ok_of_height (abi : ABI) (self : ImageRendererES2)
    (width height pitch : Nat) (hh : height ≤ INT_MAX) :
    (uploadCalls abi self width height pitch).2 = .ok := by
  unfold uploadCalls
  split
  · rfl
  · rw [uploadRows_ok abi self.glFormat self.glType width height pitch hh (height + 1) 0
      (by omega) (by omega)]

/-! ## Claims -/

/-- Claim C1, at its own scenario: XRGB8888, a 2x2 frame with pitch 8 whose four pixels
are `(0x10, 0x20, 0x30, 0x40)`. The claim has all four pixels become
`(0x30, 0x20, 0x10, 0x40)`. `onNewFrame` ends normally and uploads on the fast path, but
the conversion, whose loop runs while `i < size - 4`, stops before the last complete
four-byte group: the fourth pixel is still `(0x10, 0x20, 0x30, 0x40)`. -/
theorem C1_last_pixel_not_converted (abi : ABI) :
    (onNewFrame abi libretro_h
        (setPixelFormat libretro_h (sampleRenderer libretro_h)
          libretro_h.RETRO_PIXEL_FORMAT_XRGB8888)
        [0x10, 0x20, 0x30, 0x40, 0x10, 0x20, 0x30, 0x40,
         0x10, 0x20, 0x30, 0x40, 0x10, 0x20, 0x30, 0x40] 2 2 8).status = .ok ∧
    (onNewFrame abi libretro_h
        (setPixelFormat libretro_h (sampleRenderer libretro_h)
          libretro_h.RETRO_PIXEL_FORMAT_XRGB8888)
        [0x10, 0x20, 0x30, 0x40, 0x10, 0x20, 0x30, 0x40,
         0x10, 0x20, 0x30, 0x40, 0x10, 0x20, 0x30, 0x40] 2 2 8).data =
      [0x30, 0x20, 0x10, 0x40, 0x30, 0x20, 0x10, 0x40,
       0x30, 0x20, 0x10, 0x40, 0x10, 0x20, 0x30, 0x40] ∧
    (onNewFrame abi libretro_h
        (setPixelFormat libretro_h (sampleRenderer libretro_h)
          libretro_h.RETRO_PIXEL_FORMAT_XRGB8888)
        [0x10, 0x20, 0x30, 0x40, 0x10, 0x20, 0x30, 0x40,
         0x10, 0x20, 0x30, 0x40, 0x10, 0x20, 0x30, 0x40] 2 2 8).uploads =
      [.glTexSubImage2D .GL_TEXTURE_2D 0 0 0 2 2 .GL_RGBA .GL_UNSIGNED_BYTE 0] := by
  cases abi <;> decide

/-- Claim C2 fails under XRGB8888, from the same logical pixels and the same renderer:
a 1x1 image delivered with pitch 4 leaves `0x10` in byte 0 of the texture (the only
group is the last one and is skipped), delivered with pitch 8 it leaves `0x30`; and a
1x3 image delivered with pitch 4 leaves the exchanged `0x31` in byte 0 of row 1, while
with pitch 6 (not a multiple of 4) the four-byte groups of the conversion straddle the
rows and a padding byte `0xEE` ends up there. -/
theorem C2_counterexample :
    ((onNewFrame .lp64 libretro_h
          (setPixelFormat libretro_h (sampleRenderer libretro_h)
            libretro_h.RETRO_PIXEL_FORMAT_XRGB8888)
          (frameBuffer 4 4 1 sampleImage samplePadding) 1 1 4).texture GLState.initial 0 0 =
        some 0x10 ∧
      (onNewFrame .lp64 libretro_h
          (setPixelFormat libretro_h (sampleRenderer libretro_h)
            libretro_h.RETRO_PIXEL_FORMAT_XRGB8888)
          (frameBuffer 4 8 1 sampleImage samplePadding) 1 1 8).texture GLState.initial 0 0 =
        some 0x30) ∧
    ((onNewFrame .lp64 libretro_h
          (setPixelFormat libretro_h (sampleRenderer libretro_h)
            libretro_h.RETRO_PIXEL_FORMAT_XRGB8888)
          (frameBuffer 4 4 3 sampleImage samplePadding) 1 3 4).texture GLState.initial 1 0 =
        some 0x31 ∧
      (onNewFrame .lp64 libretro_h
          (setPixelFormat libretro_h (sampleRenderer libretro_h)
            libretro_h.RETRO_PIXEL_FORMAT_XRGB8888)
          (frameBuffer 4 6 3 sampleImage samplePadding) 1 3 6).texture GLState.initial 1 0 =
        some 0xEE) := by
  decide

/-- Claim C2 as amended. The same image `image` of `w` x `h` pixels is delivered without
padding (pitch `bytesPerPixel * w`, fast path) and with `p > 0` bytes of padding a row
(slow path), to the same renderer, after `setPixelFormat(fmt)`. Within the ranges of the
machine integers (`h ≤ INT_MAX`, `bytesPerPixel * w` below `UINT_MAX + 1`, the padded
buffer addressable, and at most `INT_MAX + 1` bytes under XRGB8888) both calls end
normally and leave the same byte at column `c` of row `r` of the texture: for every
pixel under RGB565 (and any code treated as RGB565), and under XRGB8888, provided the
padding is a multiple of 4 bytes, for every pixel other than the last pixel of the
image, about which nothing is said. That byte is the image's, red and blue exchanged
under XRGB8888. -/
theorem C2_fast_slow_agree (abi : ABI) (E : RetroPixelFormat) (self : ImageRendererES2)
    (g : GLState) (fmt : Int) (image padFast padSlow : Nat → Nat → Byte) (w h p : Nat)
    (hw : 0 < w) (hh : 0 < h) (hp : 0 < p)
    (hp4 : fmt = E.RETRO_PIXEL_FORMAT_XRGB8888 → p % 4 = 0)
    (hrows : h ≤ INT_MAX)
    (haddr : ((setPixelFormat E self fmt).bytesPerPixel * w + p) * h < abi.sizeMod)
    (hrow : (setPixelFormat E self fmt).bytesPerPixel * w < UINT_MOD)
    (hint : fmt = E.RETRO_PIXEL_FORMAT_XRGB8888 →
      ((setPixelFormat E self fmt).bytesPerPixel * w + p) * h ≤ INT_MAX + 1)
    (r c : Nat) (hr : r < h) (hc : c < (setPixelFormat E self fmt).bytesPerPixel * w)
    (hlast : fmt = E.RETRO_PIXEL_FORMAT_XRGB8888 → r + 1 < h ∨ c + 4 < 4 * w) :
    (onNewFrame abi E (setPixelFormat E self fmt)
      (frameBuffer ((setPixelFormat E self fmt).bytesPerPixel * w)
        ((setPixelFormat E self fmt).bytesPerPixel * w) h image padFast)
      w h ((setPixelFormat E self fmt).bytesPerPixel * w)).status = .ok ∧
    (onNewFrame abi E (setPixelFormat E self fmt)
      (frameBuffer ((setPixelFormat E self fmt).bytesPerPixel * w)
        ((setPixelFormat E self fmt).bytesPerPixel * w + p) h image padSlow)
      w h ((setPixelFormat E self fmt).bytesPerPixel * w + p)).status = .ok ∧
    (onNewFrame abi E (setPixelFormat E self fmt)
      (frameBuffer ((setPixelFormat E self fmt).bytesPerPixel * w)
        ((setPixelFormat E self fmt).bytesPerPixel * w) h image padFast)
      w h ((setPixelFormat E self fmt).bytesPerPixel * w)).texture g r c =
    (onNewFrame abi E (setPixelFormat E self fmt)
      (frameBuffer ((setPixelFormat E self fmt).bytesPerPixel * w)
        ((setPixelFormat E self fmt).bytesPerPixel * w + p) h image padSlow)
      w h ((setPixelFormat E self fmt).bytesPerPixel * w + p)).texture g r c ∧
    (onNewFrame abi E (setPixelFormat E self fmt)
      (frameBuffer ((setPixelFormat E self fmt).bytesPerPixel * w)
        ((setPixelFormat E self fmt).bytesPerPixel * w + p) h image padSlow)
      w h ((setPixelFormat E self fmt).bytesPerPixel * w + p)).texture g r c =
      some (image r (if fmt = E.RETRO_PIXEL_FORMAT_XRGB8888 then swapColumn c else c)) := by
  have hmono : (setPixelFormat E self fmt).bytesPerPixel * w * h ≤
      ((setPixelFormat E self fmt).bytesPerPixel * w + p) * h :=
    Nat.mul_le_mul_right h (Nat.le_add_right _ _)
  have hfast := texture_of_frame abi E self g fmt image padFast w h
    ((setPixelFormat E self fmt).bytesPerPixel * w) hw hh (Nat.le_refl _)
    (fun hf => by rw [(setPixelFormat_of_eq E self fmt hf).2.1]; exact Nat.mul_mod_right 4 w)
    hrows (lt_of_le_of_lt hmono haddr) hrow (fun hf => le_trans hmono (hint hf)) r c hr hc
    (fun hf => by
      have hb := (setPixelFormat_of_eq E self fmt hf).2.1
      rw [hb] at hc ⊢
      have h1 := mul_succ_le (4 * w) r h hr
      rcases hlast hf with h2 | h2
      · have h3 := mul_succ_le (4 * w) (r + 1) h h2
        rw [Nat.mul_succ] at h3
        omega
      · omega)
  have hslow := texture_of_frame abi E self g fmt image padSlow w h
    ((setPixelFormat E self fmt).bytesPerPixel * w + p) hw hh (Nat.le_add_right _ _)
    (fun hf => by
      rw [(setPixelFormat_of_eq E self fmt hf).2.1, Nat.add_mod, Nat.mul_mod_right, hp4 hf])
    hrows haddr hrow hint r c hr hc
    (fun hf => by
      have hb := (setPixelFormat_of_eq E self fmt hf).2.1
      rw [hb] at hc ⊢
      have h1 := mul_succ_le (4 * w + p) r h hr
      omega)
  exact ⟨hfast.1, hslow.1, hfast.2.trans hslow.2.symm, hslow.2⟩

/-- Claim C2 as amended, at a 2x2 XRGB8888 image with 4 bytes of padding per row: byte 2
of row 1. -/
theorem C2_fast_slow_agree_witness :
    (0 < 2 ∧ 0 < 2 ∧ 0 < 4 ∧ 2 ≤ INT_MAX ∧
      ((setPixelFormat libretro_h (sampleRenderer libretro_h)
        libretro_h.RETRO_PIXEL_FORMAT_XRGB8888).bytesPerPixel * 2 + 4) * 2 ≤ INT_MAX + 1 ∧
      (1 < 2 ∧ 2 < (setPixelFormat libretro_h (sampleRenderer libretro_h)
        libretro_h.RETRO_PIXEL_FORMAT_XRGB8888).bytesPerPixel * 2) ∧ 2 + 4 < 4 * 2) ∧
    (onNewFrame .lp64 libretro_h
        (setPixelFormat libretro_h (sampleRenderer libretro_h)
          libretro_h.RETRO_PIXEL_FORMAT_XRGB8888)
        (frameBuffer 8 8 2 sampleImage samplePadding) 2 2 8).texture GLState.initial 1 2 =
      (onNewFrame .lp64 libretro_h
        (setPixelFormat libretro_h (sampleRenderer libretro_h)
          libretro_h.RETRO_PIXEL_FORMAT_XRGB8888)
        (frameBuffer 8 12 2 sampleImage samplePadding) 2 2 12).texture GLState.initial 1 2 :=
  ⟨by decide,
    (C2_fast_slow_agree .lp64 libretro_h (sampleRenderer libretro_h) GLState.initial
      libretro_h.RETRO_PIXEL_FORMAT_XRGB8888 sampleImage samplePadding samplePadding 2 2 4
      (by decide) (by decide) (by decide) (fun _ => by decide) (by decide) (by decide)
      (by decide) (fun _ => by decide) 1 2 (by decide) (by decide)
      (fun _ => Or.inr (by decide))).2.2.1⟩

/-- Claim C3, at buffers of 1, 2 and 3 bytes. The claim has the conversion leave the
trailing bytes unchanged and touch no index outside `[0, n)`. In `size_t` the bound
`size - 4` wraps to a huge value, so the loop is entered: with 1 or 2 bytes it reads
index 2, outside the buffer; with 3 bytes it exchanges bytes 0 and 2 and then reads
index 4. (`convert_short_undefined`: no extent below four bytes is converted without
undefined behaviour.) -/
theorem C3_short_buffer_out_of_bounds (abi : ABI) :
    convertDataFromRGB8888 abi [0x10] 1 = ⟨[0x10], [0, 2], .outOfBounds⟩ ∧
    convertDataFromRGB8888 abi [0x10, 0x20] 2 = ⟨[0x10, 0x20], [0, 2], .outOfBounds⟩ ∧
    convertDataFromRGB8888 abi [0x10, 0x20, 0x30] 3 =
      ⟨[0x30, 0x20, 0x10], [0, 2, 0, 2, 4], .outOfBounds⟩ := by
  cases abi <;> decide

/-- Claim C4, at the empty buffer, whose length 0 is a multiple of 4. The claim has two
conversions give the buffer back. The bound `size - 4` wraps, the loop is entered and the
first conversion already reads index 0, outside the buffer. (`convert_twice` is the
claim for every length from 4 to `INT_MAX + 1`.) -/
theorem C4_empty_buffer_out_of_bounds (abi : ABI) :
    convertDataFromRGB8888 abi [] 0 = ⟨[], [0], .outOfBounds⟩ := by
  cases abi <;> decide

/-- Claim C5: from every renderer state, `setPixelFormat(XRGB8888)` leaves
`bytesPerPixel = 4`, format `GL_RGBA`, type `GL_UNSIGNED_BYTE` (and internal format
`GL_RGBA`); `setPixelFormat(RGB565)` leaves `bytesPerPixel = 2`, format `GL_RGB`, type
`GL_UNSIGNED_SHORT_5_6_5` (and internal format `GL_RGB565`); and for every code the four
transfer parameters are the same whatever the state before (`self` or `other`). -/
theorem C5_setPixelFormat_parameters (E : RetroPixelFormat) (self other : ImageRendererES2)
    (pixelFormat : Int) :
    ((setPixelFormat E self E.RETRO_PIXEL_FORMAT_XRGB8888).bytesPerPixel = 4 ∧
      (setPixelFormat E self E.RETRO_PIXEL_FORMAT_XRGB8888).glFormat = .GL_RGBA ∧
      (setPixelFormat E self E.RETRO_PIXEL_FORMAT_XRGB8888).glType = .GL_UNSIGNED_BYTE ∧
      (setPixelFormat E self E.RETRO_PIXEL_FORMAT_XRGB8888).glInternalFormat = .GL_RGBA) ∧
    ((setPixelFormat E self E.RETRO_PIXEL_FORMAT_RGB565).bytesPerPixel = 2 ∧
      (setPixelFormat E self E.RETRO_PIXEL_FORMAT_RGB565).glFormat = .GL_RGB ∧
      (setPixelFormat E self E.RETRO_PIXEL_FORMAT_RGB565).glType = .GL_UNSIGNED_SHORT_5_6_5 ∧
      (setPixelFormat E self E.RETRO_PIXEL_FORMAT_RGB565).glInternalFormat = .GL_RGB565) ∧
    ((setPixelFormat E self pixelFormat).bytesPerPixel =
        (setPixelFormat E other pixelFormat).bytesPerPixel ∧
      (setPixelFormat E self pixelFormat).glFormat =
        (setPixelFormat E other pixelFormat).glFormat ∧
      (setPixelFormat E self pixelFormat).glType =
        (setPixelFormat E other pixelFormat).glType ∧
      (setPixelFormat E self pixelFormat).glInternalFormat =
        (setPixelFormat E other pixelFormat).glInternalFormat ∧
      (setPixelFormat E self pixelFormat).pixelFormat = pixelFormat) := by
  have hd : ¬ E.RETRO_PIXEL_FORMAT_RGB565 = E.RETRO_PIXEL_FORMAT_XRGB8888 :=
    fun h => E.distinct h.symm
  refine ⟨?_, ?_, ?_⟩
  · simp [setPixelFormat]
  · simp [setPixelFormat, hd]
  · unfold setPixelFormat
    split <;> simp

/-- Claim C6: for every code other than the XRGB8888 and RGB565 codes, `setPixelFormat`
(a total function) leaves `bytesPerPixel = 2` and the renderer that
`setPixelFormat(RGB565)` leaves, apart from the stored code itself; and every following
`onNewFrame` ends the same way, with the same OpenGL ES calls, the same frame buffer and
the same stored frame size as after `setPixelFormat(RGB565)`: no conversion, the buffer
untouched. -/
theorem C6_unrecognised_code_is_RGB565 (abi : ABI) (E : RetroPixelFormat)
    (self : ImageRendererES2) (code : Int)
    (hx : code ≠ E.RETRO_PIXEL_FORMAT_XRGB8888) (_hr : code ≠ E.RETRO_PIXEL_FORMAT_RGB565) :
    (setPixelFormat E self code).bytesPerPixel = 2 ∧
    setPixelFormat E self code =
      { setPixelFormat E self E.RETRO_PIXEL_FORMAT_RGB565 with pixelFormat := code } ∧
    ∀ (data : List Byte) (width height pitch : Nat),
      (onNewFrame abi E (setPixelFormat E self code) data width height pitch).data =
        (onNewFrame abi E (setPixelFormat E self E.RETRO_PIXEL_FORMAT_RGB565) data width height
          pitch).data ∧
      (onNewFrame abi E (setPixelFormat E self code) data width height pitch).calls =
        (onNewFrame abi E (setPixelFormat E self E.RETRO_PIXEL_FORMAT_RGB565) data width height
          pitch).calls ∧
      (onNewFrame abi E (setPixelFormat E self code) data width height pitch).accesses =
        (onNewFrame abi E (setPixelFormat E self E.RETRO_PIXEL_FORMAT_RGB565) data width height
          pitch).accesses ∧
      (onNewFrame abi E (setPixelFormat E self code) data width height pitch).status =
        (onNewFrame abi E (setPixelFormat E self E.RETRO_PIXEL_FORMAT_RGB565) data width height
          pitch).status ∧
      (onNewFrame abi E (setPixelFormat E self code) data width height
          pitch).renderer.lastFrameSize =
        (onNewFrame abi E (setPixelFormat E self E.RETRO_PIXEL_FORMAT_RGB565) data width height
          pitch).renderer.lastFrameSize ∧
      (onNewFrame abi E (setPixelFormat E self code) data width height pitch).data = data ∧
      (onNewFrame abi E (setPixelFormat E self code) data width height pitch).accesses = [] := by
  have hd : ¬ E.RETRO_PIXEL_FORMAT_RGB565 = E.RETRO_PIXEL_FORMAT_XRGB8888 :=
    fun h => E.distinct h.symm
  have hset : setPixelFormat E self code =
      { setPixelFormat E self E.RETRO_PIXEL_FORMAT_RGB565 with pixelFormat := code } := by
    simp [setPixelFormat, hx, hd]
  refine ⟨by simp [setPixelFormat, hx], hset, ?_⟩
  intro data width height pitch
  have h1 : convertFrame abi E (setPixelFormat E self code) data height pitch =
      ⟨data, [], .ok⟩ :=
    convertFrame_of_ne _ _ _ _ _ _ (by simp [setPixelFormat, hx])
  have h2 : convertFrame abi E (setPixelFormat E self E.RETRO_PIXEL_FORMAT_RGB565) data height
      pitch = ⟨data, [], .ok⟩ :=
    convertFrame_of_ne _ _ _ _ _ _ (by simp [setPixelFormat, hd])
  have h3 : uploadCalls abi (setPixelFormat E self code) width height pitch =
      uploadCalls abi (setPixelFormat E self E.RETRO_PIXEL_FORMAT_RGB565) width height pitch := by
    rw [hset]; rfl
  have h4 : bindCalls (setPixelFormat E self code) =
      bindCalls (setPixelFormat E self E.RETRO_PIXEL_FORMAT_RGB565) := by
    rw [hset]; rfl
  have h5 : allocCalls (setPixelFormat E self code) width height =
      allocCalls (setPixelFormat E self E.RETRO_PIXEL_FORMAT_RGB565) width height := by
    rw [hset]; rfl
  refine ⟨?_, ?_, ?_, ?_, ?_, ?_, ?_⟩
  · rw [onNewFrame_data, onNewFrame_data, h1, h2]
  · unfold onNewFrame
    dsimp only
    rw [h1, h2, h3, h4, h5]
    dsimp only
    split <;> rfl
  · rw [onNewFrame_accesses, onNewFrame_accesses, h1, h2]
  · rw [onNewFrame_status, onNewFrame_status, h1, h2, h3]
  · unfold onNewFrame
    dsimp only
    rw [h1, h2, h3]
    dsimp only
    split
    · rfl
    · rw [hset]
  · rw [onNewFrame_data, h1]
  · rw [onNewFrame_accesses, h1]

/-- Claim C6 at the code 7 and the RGB565 scenario frame (4x4, pitch 10). -/
theorem C6_unrecognised_code_is_RGB565_witness :
    (7 : Int) ≠ libretro_h.RETRO_PIXEL_FORMAT_XRGB8888 ∧
    (7 : Int) ≠ libretro_h.RETRO_PIXEL_FORMAT_RGB565 ∧
    (setPixelFormat libretro_h (sampleRenderer libretro_h) 7).bytesPerPixel = 2 ∧
    (onNewFrame .lp64 libretro_h (setPixelFormat libretro_h (sampleRenderer libretro_h) 7)
        (List.replicate 40 0x5a) 4 4 10).calls =
      (onNewFrame .lp64 libretro_h
        (setPixelFormat libretro_h (sampleRenderer libretro_h) libretro_h.RETRO_PIXEL_FORMAT_RGB565)
        (List.replicate 40 0x5a) 4 4 10).calls :=
  ⟨by decide, by decide,
    (C6_unrecognised_code_is_RGB565 .lp64 libretro_h (sampleRenderer libretro_h) 7 (by decide)
      (by decide)).1,
    ((C6_unrecognised_code_is_RGB565 .lp64 libretro_h (sampleRenderer libretro_h) 7 (by decide)
      (by decide)).2.2 (List.replicate 40 0x5a) 4 4 10).2.1⟩

/-- Claim C7 fails outside the ranges of the machine integers, on LP64, for frames that
meet the preconditions of `onNewFrame`. RGB565, width `2^31`, height 2, pitch `2^32`:
the pitch is `bytesPerPixel * width`, but the product wraps to 0 in `unsigned` and the
rows are uploaded one by one. RGB565, width 1, height `2^31 + 1`, pitch 4: the `int` row
counter overflows after `2^31` uploads. XRGB8888, width `2^15`, height `2^14 + 1`,
pitch `2^17`: the `int` byte counter of the conversion overflows and nothing is
uploaded. -/
theorem C7_counterexample :
    ((0 < 2 ^ 31 ∧ 0 < 2 ∧ (sampleRenderer libretro_h).bytesPerPixel * 2 ^ 31 ≤ 2 ^ 32 ∧
        2 ^ 32 * 2 ≤ (List.replicate (2 ^ 33) (0 : Byte)).length ∧
        (List.replicate (2 ^ 33) (0 : Byte)).length < ABI.lp64.sizeMod) ∧
      2 ^ 32 = (sampleRenderer libretro_h).bytesPerPixel * 2 ^ 31 ∧
      (onNewFrame .lp64 libretro_h (sampleRenderer libretro_h) (List.replicate (2 ^ 33) 0)
          (2 ^ 31) 2 (2 ^ 32)).uploads =
        [.glTexSubImage2D .GL_TEXTURE_2D 0 0 0 (2 ^ 31) 1 .GL_RGB .GL_UNSIGNED_SHORT_5_6_5 0,
         .glTexSubImage2D .GL_TEXTURE_2D 0 0 1 (2 ^ 31) 1 .GL_RGB .GL_UNSIGNED_SHORT_5_6_5
           (2 ^ 32)]) ∧
    ((0 < 1 ∧ 0 < 2 ^ 31 + 1 ∧ (sampleRenderer libretro_h).bytesPerPixel * 1 ≤ 4 ∧
        4 * (2 ^ 31 + 1) ≤ (List.replicate (2 ^ 33 + 4) (0 : Byte)).length ∧
        (List.replicate (2 ^ 33 + 4) (0 : Byte)).length < ABI.lp64.sizeMod) ∧
      4 ≠ (sampleRenderer libretro_h).bytesPerPixel * 1 ∧
      (onNewFrame .lp64 libretro_h (sampleRenderer libretro_h) (List.replicate (2 ^ 33 + 4) 0)
          1 (2 ^ 31 + 1) 4).status = .signedOverflow ∧
      (onNewFrame .lp64 libretro_h (sampleRenderer libretro_h) (List.replicate (2 ^ 33 + 4) 0)
          1 (2 ^ 31 + 1) 4).uploads.length = 2 ^ 31) ∧
    ((0 < 2 ^ 15 ∧ 0 < 2 ^ 14 + 1 ∧
        (setPixelFormat libretro_h (sampleRenderer libretro_h)
          libretro_h.RETRO_PIXEL_FORMAT_XRGB8888).bytesPerPixel * 2 ^ 15 ≤ 2 ^ 17 ∧
        2 ^ 17 * (2 ^ 14 + 1) ≤ (List.replicate (2 ^ 31 + 2 ^ 17) (0 : Byte)).length ∧
        (List.replicate (2 ^ 31 + 2 ^ 17) (0 : Byte)).length < ABI.lp64.sizeMod) ∧
      2 ^ 17 = (setPixelFormat libretro_h (sampleRenderer libretro_h)
          libretro_h.RETRO_PIXEL_FORMAT_XRGB8888).bytesPerPixel * 2 ^ 15 ∧
      (onNewFrame .lp64 libretro_h
          (setPixelFormat libretro_h (sampleRenderer libretro_h)
            libretro_h.RETRO_PIXEL_FORMAT_XRGB8888)
          (List.replicate (2 ^ 31 + 2 ^ 17) 0) (2 ^ 15) (2 ^ 14 + 1) (2 ^ 17)).status =
        .signedOverflow ∧
      (onNewFrame .lp64 libretro_h
          (setPixelFormat libretro_h (sampleRenderer libretro_h)
            libretro_h.RETRO_PIXEL_FORMAT_XRGB8888)
          (List.replicate (2 ^ 31 + 2 ^ 17) 0) (2 ^ 15) (2 ^ 14 + 1) (2 ^ 17)).uploads = []) := by
  have hconv : (convertFrame .lp64 libretro_h
      (setPixelFormat libretro_h (sampleRenderer libretro_h)
        libretro_h.RETRO_PIXEL_FORMAT_XRGB8888)
      (List.replicate (2 ^ 31 + 2 ^ 17) 0) (2 ^ 14 + 1) (2 ^ 17)).status = .signedOverflow := by
    rw [convertFrame_of_eq _ _ _ _ _ _ (by decide)]
    apply convert_overflow
    · simp only [List.length_replicate]
      decide
    · simp only [List.length_replicate]
      decide
    · decide
  refine ⟨⟨?_, by decide, by decide⟩, ⟨?_, by decide, ?_, ?_⟩, ⟨?_, by decide, ?_, ?_⟩⟩
  rotate_left 4
  · simp only [List.length_replicate]
    decide
  · rw [onNewFrame_status, if_neg (by rw [hconv]; decide), hconv]
  · rw [onNewFrame_uploads, if_neg (by rw [hconv]; decide)]
  · simp only [List.length_replicate]
    decide
  · simp only [List.length_replicate]
    decide
  · have hc : (convertFrame .lp64 libretro_h (sampleRenderer libretro_h)
        (List.replicate (2 ^ 33 + 4) 0) (2 ^ 31 + 1) 4).status = .ok := by decide
    rw [onNewFrame_status, if_pos hc]
    have hne : ¬ ((sampleRenderer libretro_h).bytesPerPixel * 1) % UINT_MOD = 4 := by decide
    unfold uploadCalls
    rw [if_neg hne]
    exact (uploadRows_overflow _ _ _ _ _ _ (by decide) _ _ (by decide) (by decide)).1
  · have hc : (convertFrame .lp64 libretro_h (sampleRenderer libretro_h)
        (List.replicate (2 ^ 33 + 4) 0) (2 ^ 31 + 1) 4).status = .ok := by decide
    rw [onNewFrame_uploads, if_pos hc]
    have hne : ¬ ((sampleRenderer libretro_h).bytesPerPixel * 1) % UINT_MOD = 4 := by decide
    unfold uploadCalls
    rw [if_neg hne]
    exact (uploadRows_overflow _ _ _ _ _ _ (by decide) _ _ (by decide) (by decide)).2

/-- Claim C7 as amended: for every frame that meets the preconditions of `onNewFrame`
with `height ≤ INT_MAX`, `bytesPerPixel * width < UINT_MAX + 1` and, under XRGB8888,
`pitch * height ≤ INT_MAX + 1` (`ValidFrame`), the uploads are the single
`glTexSubImage2D` of the whole `width` x `height` image from offset 0 when
`pitch = bytesPerPixel * width`, and otherwise exactly `height` uploads, the `i`-th of
one row of `width` pixels from byte offset `pitch * i` to row `i` of the texture. -/
theorem C7_upload_path (abi : ABI) (E : RetroPixelFormat) (self : ImageRendererES2)
    (data : List Byte) (width height pitch : Nat)
    (hv : ValidFrame abi E self data width height pitch) :
    (pitch = self.bytesPerPixel * width →
      (onNewFrame abi E self data width height pitch).uploads =
        [.glTexSubImage2D .GL_TEXTURE_2D 0 0 0 width height self.glFormat self.glType 0]) ∧
    (pitch ≠ self.bytesPerPixel * width →
      (onNewFrame abi E self data width height pitch).uploads =
        (List.range height).map fun i =>
          .glTexSubImage2D .GL_TEXTURE_2D 0 0 i width 1 self.glFormat self.glType
            (pitch * i)) := by
  have hc := convertFrame_ok abi E self data width height pitch hv
  rw [onNewFrame_uploads, if_pos hc]
  refine ⟨fun hp => ?_, fun hp => ?_⟩
  · rw [uploadCalls_fast abi self width height pitch hv.row_lt hp]
  · rw [uploadCalls_slow abi self width height pitch hv.row_lt hv.height_le hp]
    apply List.map_congr_left
    intro i hi
    have hi' : i < height := List.mem_range.mp hi
    have hlt : pitch * i < abi.sizeMod :=
      lt_of_le_of_lt (Nat.mul_le_mul_left pitch (Nat.le_of_lt hi'))
        (lt_of_le_of_lt hv.data_ge hv.data_lt)
    unfold rowCall
    rw [Nat.mod_eq_of_lt hlt]

/-- Claim C7 as amended, at its own scenario: RGB565, 4x4, pitch 10 gives four row
uploads from offsets 0, 10, 20, 30. -/
theorem C7_upload_path_witness :
    ValidFrame .lp64 libretro_h (sampleRenderer libretro_h) (List.replicate 40 0x5a) 4 4 10 ∧
    10 ≠ (sampleRenderer libretro_h).bytesPerPixel * 4 ∧
    (onNewFrame .lp64 libretro_h (sampleRenderer libretro_h) (List.replicate 40 0x5a) 4 4
      10).uploads =
      [.glTexSubImage2D .GL_TEXTURE_2D 0 0 0 4 1 .GL_RGB .GL_UNSIGNED_SHORT_5_6_5 0,
       .glTexSubImage2D .GL_TEXTURE_2D 0 0 1 4 1 .GL_RGB .GL_UNSIGNED_SHORT_5_6_5 10,
       .glTexSubImage2D .GL_TEXTURE_2D 0 0 2 4 1 .GL_RGB .GL_UNSIGNED_SHORT_5_6_5 20,
       .glTexSubImage2D .GL_TEXTURE_2D 0 0 3 4 1 .GL_RGB .GL_UNSIGNED_SHORT_5_6_5 30] :=
  have hv : ValidFrame .lp64 libretro_h (sampleRenderer libretro_h) (List.replicate 40 0x5a) 4 4
      10 :=
    ⟨by decide, by decide, by decide, by decide, by decide, by decide, by decide, by decide,
      by decide⟩
  ⟨hv, by decide,
    (C7_upload_path .lp64 libretro_h (sampleRenderer libretro_h) (List.replicate 40 0x5a) 4 4 10
      hv).2 (by decide)⟩

/-- Claim C9: when the stored pixel format is not the XRGB8888 code, `onNewFrame` leaves
every byte of the frame buffer as it was and the conversion touches no index, for every
width, height and pitch and however the call ends. -/
theorem C9_no_conversion (abi : ABI) (E : RetroPixelFormat) (self : ImageRendererES2)
    (data : List Byte) (width height pitch : Nat)
    (h : self.pixelFormat ≠ E.RETRO_PIXEL_FORMAT_XRGB8888) :
    (onNewFrame abi E self data width height pitch).data = data ∧
    (onNewFrame abi E self data width height pitch).accesses = [] := by
  rw [onNewFrame_data, onNewFrame_accesses, convertFrame_of_ne abi E self data height pitch h]
  exact ⟨rfl, rfl⟩

/-- Claim C9 at the RGB565 scenario frame (4x4, pitch 10). -/
theorem C9_no_conversion_witness :
    (sampleRenderer libretro_h).pixelFormat ≠ libretro_h.RETRO_PIXEL_FORMAT_XRGB8888 ∧
    (onNewFrame .lp64 libretro_h (sampleRenderer libretro_h) (List.replicate 40 0x5a) 4 4 10).data
      = List.replicate 40 0x5a ∧
    (onNewFrame .lp64 libretro_h (sampleRenderer libretro_h) (List.replicate 40 0x5a) 4 4
      10).accesses = [] :=
  ⟨by decide, C9_no_conversion .lp64 libretro_h (sampleRenderer libretro_h)
    (List.replicate 40 0x5a) 4 4 10 (by decide)⟩

/-- Claim C10 fails above `INT_MAX + 1` bytes. XRGB8888 on LP64, width `2^15`, height
`2^14 + 1`, pitch `2^17`, a buffer of `2^31 + 2^17` bytes: the frame meets every
precondition the claim lists, but the extent is longer than the `int` counter can
cover, so the conversion does not run to its end inside the extent: it stops at the
overflow of `i += 4`, which is undefined behaviour, and so does `onNewFrame`. -/
theorem C10_counterexample :
    ((setPixelFormat libretro_h (sampleRenderer libretro_h)
        libretro_h.RETRO_PIXEL_FORMAT_XRGB8888).pixelFormat =
        libretro_h.RETRO_PIXEL_FORMAT_XRGB8888 ∧
      0 < 2 ^ 15 ∧ 0 < 2 ^ 14 + 1 ∧ 4 * 2 ^ 15 ≤ 2 ^ 17 ∧
      2 ^ 17 * (2 ^ 14 + 1) ≤ (List.replicate (2 ^ 31 + 2 ^ 17) (0 : Byte)).length ∧
      (List.replicate (2 ^ 31 + 2 ^ 17) (0 : Byte)).length < ABI.lp64.sizeMod) ∧
    INT_MAX + 1 < 2 ^ 17 * (2 ^ 14 + 1) ∧
    (convertFrame .lp64 libretro_h
        (setPixelFormat libretro_h (sampleRenderer libretro_h)
          libretro_h.RETRO_PIXEL_FORMAT_XRGB8888)
        (List.replicate (2 ^ 31 + 2 ^ 17) 0) (2 ^ 14 + 1) (2 ^ 17)).status = .signedOverflow ∧
    (onNewFrame .lp64 libretro_h
        (setPixelFormat libretro_h (sampleRenderer libretro_h)
          libretro_h.RETRO_PIXEL_FORMAT_XRGB8888)
        (List.replicate (2 ^ 31 + 2 ^ 17) 0) (2 ^ 15) (2 ^ 14 + 1) (2 ^ 17)).status =
      .signedOverflow := by
  have hconv : (convertFrame .lp64 libretro_h
      (setPixelFormat libretro_h (sampleRenderer libretro_h)
        libretro_h.RETRO_PIXEL_FORMAT_XRGB8888)
      (List.replicate (2 ^ 31 + 2 ^ 17) 0) (2 ^ 14 + 1) (2 ^ 17)).status = .signedOverflow := by
    rw [convertFrame_of_eq _ _ _ _ _ _ (by decide)]
    apply convert_overflow
    · simp only [List.length_replicate]
      decide
    · simp only [List.length_replicate]
      decide
    · decide
  refine ⟨?_, by decide, hconv, ?_⟩
  · simp only [List.length_replicate]
    decide
  · rw [onNewFrame_status, if_neg (by rw [hconv]; decide), hconv]

/-- Claim C10 as amended: under XRGB8888, for `width > 0`, `height > 0`,
`pitch ≥ 4 * width`, a buffer of at least `pitch * height` bytes (an object of the
address space, so shorter than `SIZE_MAX + 1`) and an extent the `int` counter can
cover, `pitch * height ≤ INT_MAX + 1`: the extent has at least 4 bytes, the bound
`size - 4` computed in `size_t` is `pitch * height - 4` (no wrap), every index the
conversion reads or writes is below `pitch * height`, and both the conversion and the
whole call end normally, so no access outside the buffer and no overflow of a counter
is reached. -/
theorem C10_conversion_in_bounds (abi : ABI) (E : RetroPixelFormat) (self : ImageRendererES2)
    (data : List Byte) (width height pitch : Nat)
    (hfmt : self.pixelFormat = E.RETRO_PIXEL_FORMAT_XRGB8888)
    (hw : 0 < width) (hh : 0 < height) (hp : 4 * width ≤ pitch)
    (hd : pitch * height ≤ data.length) (haddr : data.length < abi.sizeMod)
    (hint : pitch * height ≤ INT_MAX + 1) :
    4 ≤ pitch * height ∧
    loopBound abi ((pitch * height) % abi.sizeMod) = pitch * height - 4 ∧
    (∀ idx ∈ (onNewFrame abi E self data width height pitch).accesses,
      idx < pitch * height) ∧
    (convertFrame abi E self data height pitch).status = .ok ∧
    (onNewFrame abi E self data width height pitch).status = .ok := by
  have h4 := size_ge_four width height pitch hw hh hp
  have hlt : pitch * height < abi.sizeMod := lt_of_le_of_lt hd haddr
  have hconv := convertFrame_of_eq abi E self data height pitch hfmt
  rw [Nat.mod_eq_of_lt hlt] at hconv
  have hok : (convertFrame abi E self data height pitch).status = .ok := by
    rw [hconv]
    exact (convert_ok abi data _ h4 hd haddr hint).1
  have hheight : height ≤ INT_MAX := by
    have h1 : 4 * height ≤ pitch * height := Nat.mul_le_mul_right height (by omega)
    have hI : INT_MAX = 2 ^ 31 - 1 := rfl
    omega
  refine ⟨h4, ?_, ?_, hok, ?_⟩
  · rw [Nat.mod_eq_of_lt hlt, loopBound_of_ge abi _ h4 hlt]
  · intro idx hidx
    rw [onNewFrame_accesses, hconv] at hidx
    have := convert_accesses abi data _ h4 hlt idx hidx
    omega
  · rw [onNewFrame_status, if_pos hok]
    exact uploadCalls_ok_of_height abi self width height pitch hheight

/-- Claim C10 as amended, at a 2x2 XRGB8888 frame with pitch 12, on ILP32. -/
theorem C10_conversion_in_bounds_witness :
    ((setPixelFormat libretro_h (sampleRenderer libretro_h) 1).pixelFormat =
        libretro_h.RETRO_PIXEL_FORMAT_XRGB8888 ∧
      0 < 2 ∧ 0 < 2 ∧ 4 * 2 ≤ 12 ∧ 12 * 2 ≤ (List.replicate 24 (0x5a : Byte)).length ∧
      (List.replicate 24 (0x5a : Byte)).length < ABI.ilp32.sizeMod ∧
      12 * 2 ≤ INT_MAX + 1) ∧
    4 ≤ 12 * 2 ∧
    loopBound .ilp32 ((12 * 2) % ABI.ilp32.sizeMod) = 12 * 2 - 4 ∧
    (onNewFrame .ilp32 libretro_h (setPixelFormat libretro_h (sampleRenderer libretro_h) 1)
      (List.replicate 24 0x5a) 2 2 12).accesses = [0, 2, 0, 2, 4, 6, 4, 6, 8, 10, 8, 10,
        12, 14, 12, 14, 16, 18, 16, 18] ∧
    (onNewFrame .ilp32 libretro_h (setPixelFormat libretro_h (sampleRenderer libretro_h) 1)
      (List.replicate 24 0x5a) 2 2 12).status = .ok :=
  ⟨by decide,
    (C10_conversion_in_bounds .ilp32 libretro_h
      (setPixelFormat libretro_h (sampleRenderer libretro_h) 1) (List.replicate 24 0x5a) 2 2 12
      (by decide) (by decide) (by decide) (by decide) (by decide) (by decide)
      (by decide)).1,
    (C10_conversion_in_bounds .ilp32 libretro_h
      (setPixelFormat libretro_h (sampleRenderer libretro_h) 1) (List.replicate 24 0x5a) 2 2 12
      (by decide) (by decide) (by decide) (by decide) (by decide) (by decide)
      (by decide)).2.1,
    by decide,
    (C10_conversion_in_bounds .ilp32 libretro_h
      (setPixelFormat libretro_h (sampleRenderer libretro_h) 1) (List.replicate 24 0x5a) 2 2 12
      (by decide) (by decide) (by decide) (by decide) (by decide) (by decide)
      (by decide)).2.2.2.2⟩

end LibretroDroid
